import Mathlib

/-!
# express-health: `configValidator`

A shallow embedding of `src/configValidator.js` and theorems about it.

JavaScript values are modelled as finite trees (`JSValue`).  The validator mutates its
argument in place and returns it; on tree-shaped input (no object reachable along two
paths) this is the same as rebuilding the tree, which is what the embedding does.
A thrown `TypeError` is `none`.

The module imports two things that are not part of the sources at hand, the default
configuration and the request-method table; together with the host function
`String.prototype.toUpperCase` they form the environment `Env` every definition takes
as a parameter.
-/

namespace ExpressHealth

/-! ## Values -/

/-- JavaScript values as they occur in a configuration tree.  Numbers are observed by the
validator only through their truthiness and their type tag, so an integer stands for the
number (`0` for every falsy number).  An array carries its elements and, like every
JavaScript array, may also carry named properties. -/
inductive JSValue where
  | undefined
  | null
  | bool (b : Bool)
  | num (n : Int)
  | str (s : String)
  | obj (props : List (String × JSValue))
  | arr (elems : List JSValue) (props : List (String × JSValue))

open JSValue

/-- The truthiness of a value (`ToBoolean`): what `!v` and `v || w` test. -/
def truthy : JSValue → Bool
  | .undefined => false
  | .null => false
  | .bool b => b
  | .num n => n != 0
  | .str s => s != ""
  | .obj _ => true
  | .arr _ _ => true

/-- The `typeof` operator. -/
def typeOf : JSValue → String
  | .undefined => "undefined"
  | .null => "object"
  | .bool _ => "boolean"
  | .num _ => "number"
  | .str _ => "string"
  | .obj _ => "object"
  | .arr _ _ => "object"

/-- The `Array.isArray` test. -/
def isArray : JSValue → Bool
  | .arr _ _ => true
  | _ => false

/-- Objects and arrays: the values that hold properties. -/
def isObject : JSValue → Bool
  | .obj _ => true
  | .arr _ _ => true
  | _ => false

/-- Own-property lookup in a property list; a missing key reads as `undefined`. -/
def assocGet : List (String × JSValue) → String → JSValue
  | [], _ => .undefined
  | (k, v) :: rest, key => if k = key then v else assocGet rest key

/-- Property assignment in a property list: an existing key keeps its place, a new key is
appended. -/
def assocSet : List (String × JSValue) → String → JSValue → List (String × JSValue)
  | [], key, val => [(key, val)]
  | (k, v) :: rest, key, val =>
      if k = key then (k, val) :: rest else (k, v) :: assocSet rest key val

/-- Reading `v.key` for one of the field names the validator uses (none of them is an
array index, `length` or a prototype member).  Reading a property of `undefined` or
`null` throws. -/
def getProp : JSValue → String → Option JSValue
  | .undefined, _ => none
  | .null, _ => none
  | .obj props, key => some (assocGet props key)
  | .arr _ props, key => some (assocGet props key)
  | _, _ => some .undefined

/-- The assignment `v.key = val`, returning the updated `v`.  The module is not in strict
mode, so assigning to a property of a primitive is silently dropped; on `undefined` or
`null` it throws. -/
def setProp : JSValue → String → JSValue → Option JSValue
  | .undefined, _, _ => none
  | .null, _, _ => none
  | .obj props, key, val => some (.obj (assocSet props key val))
  | .arr elems props, key, val => some (.arr elems (assocSet props key val))
  | v, _, _ => some v

/-- The named properties of an object or array (none for a primitive). -/
def props : JSValue → List (String × JSValue)
  | .obj ps => ps
  | .arr _ ps => ps
  | _ => []

/-- The same object or array with its named properties replaced; a primitive is left
alone. -/
def withProps : JSValue → List (String × JSValue) → JSValue
  | .obj _, ps => .obj ps
  | .arr elems _, ps => .arr elems ps
  | v, _ => v

/-- The own-property test (`hasOwnProperty`) on a property list. -/
def hasKey : List (String × JSValue) → String → Bool
  | [], _ => false
  | (k, _) :: rest, key => k = key || hasKey rest key

/-- The host environment of the module: the two imported constants and the built-in
uppercasing of strings. -/
structure Env where
  defaultConfig : JSValue
  REQUEST_TYPES : JSValue
  toUpperCase : String → String

/-- The method call `v.toUpperCase()`: defined on strings only; on every other value the
property is missing or not callable and the call throws. -/
def callToUpperCase (env : Env) : JSValue → Option String
  | .str s => some (env.toUpperCase s)
  | _ => none

/-- Apply a fallible step to every value of a property list, stopping at the first throw. -/
def mapValuesM (f : JSValue → Option JSValue) :
    List (String × JSValue) → Option (List (String × JSValue))
  | [] => some []
  | (k, v) :: rest =>
      match f v with
      | none => none
      | some v' =>
          match mapValuesM f rest with
          | none => none
          | some rest' => some ((k, v') :: rest')

/-- Apply a fallible step to every element of a list, stopping at the first throw. -/
def mapElemsM (f : JSValue → Option JSValue) : List JSValue → Option (List JSValue)
  | [] => some []
  | v :: rest =>
      match f v with
      | none => none
      | some v' =>
          match mapElemsM f rest with
          | none => none
          | some rest' => some (v' :: rest')

/-- The loop `for (let [id, entry] of Object.entries(container)) body(entry)` where the
body updates `entry` in place: every own enumerable value is replaced by its updated
form.  The characters of a string are visited but cannot be updated; numbers and booleans
have no entries; `Object.entries` throws on `undefined` and `null`. -/
def forEntries (body : JSValue → Option JSValue) : JSValue → Option JSValue
  | .undefined => none
  | .null => none
  | .obj props => (mapValuesM body props).map .obj
  | .arr elems props =>
      match mapElemsM body elems with
      | none => none
      | some elems' => (mapValuesM body props).map (.arr elems')
  | .str s =>
      (mapElemsM body (s.data.map fun c => .str (String.singleton c))).map fun _ => .str s
  | v => some v

/-! ## The validator -/

/-- The expression `v || fallback`, the fallback being evaluated only when needed. -/
def orElseDefault (v : JSValue) (fallback : Option JSValue) : Option JSValue :=
  if truthy v then some v else fallback

/-- The statement `target.key = target.key || defaults.key` (lines 15, 16, 34 and 65). -/
def assignOrDefault (defaults : JSValue) (key : String) (target : JSValue) : Option JSValue := do
  let v ← getProp target key
  let v' ← orElseDefault v (getProp defaults key)
  setProp target key v'

/-- The statement `if (!target.key) { target.key = defaults.key }` (lines 39-41, 47-49 and
66-68). -/
def assignIfFalsy (defaults : JSValue) (key : String) (target : JSValue) : Option JSValue := do
  let v ← getProp target key
  if truthy v then some target
  else
    let d ← getProp defaults key
    setProp target key d

/-- Lines 18-26: the response block. -/
def validateResponse (env : Env) (config : JSValue) : Option JSValue := do
  let response ← getProp config "response"
  if truthy response then
    let statusCodes ← getProp response "statusCodes"
    if typeOf statusCodes ≠ "boolean" then
      let d ← (getProp env.defaultConfig "response").bind fun r => getProp r "statusCodes"
      let response' ← setProp response "statusCodes" d
      setProp config "response" response'
    else
      some config
  else
    let d ← getProp env.defaultConfig "response"
    setProp config "response" d

/-- Lines 35-37: `if (!serviceConfig.healthCheckUrl) { serviceConfig.isValid = false }`. -/
def checkHealthCheckUrl (serviceConfig : JSValue) : Option JSValue := do
  let healthCheckUrl ← getProp serviceConfig "healthCheckUrl"
  if truthy healthCheckUrl then some serviceConfig
  else setProp serviceConfig "isValid" (.bool false)

/-- Lines 42-45: uppercase the request method of a service and clear `isValid` when the
result is not a key of `REQUEST_TYPES` (the key read on line 43 is the string stored on
line 42). -/
def checkServiceMethod (env : Env) (serviceConfig : JSValue) : Option JSValue := do
  let requestMethod ← getProp serviceConfig "requestMethod"
  let upper ← callToUpperCase env requestMethod
  let sc ← setProp serviceConfig "requestMethod" (.str upper)
  let known ← getProp env.REQUEST_TYPES upper
  if truthy known then some sc else setProp sc "isValid" (.bool false)

/-- Lines 52-54: `isRequired` is replaced by the default unless it is the boolean `true`. -/
def checkIsRequired (defaultServiceConfig serviceConfig : JSValue) : Option JSValue := do
  let isRequired ← getProp serviceConfig "isRequired"
  if !truthy isRequired || typeOf isRequired ≠ "boolean" then
    let d ← getProp defaultServiceConfig "isRequired"
    setProp serviceConfig "isRequired" d
  else
    some serviceConfig

/-- Lines 32-55: the body of the consumed-services loop for one entry. -/
def validateService (env : Env) (defaultServiceConfig serviceConfig : JSValue) :
    Option JSValue :=
  if truthy serviceConfig then
    (setProp serviceConfig "isValid" (.bool true)).bind fun sc =>
    (assignOrDefault defaultServiceConfig "serviceName" sc).bind fun sc =>
    (checkHealthCheckUrl sc).bind fun sc =>
    (assignIfFalsy defaultServiceConfig "requestMethod" sc).bind fun sc =>
    (checkServiceMethod env sc).bind fun sc =>
    (assignIfFalsy defaultServiceConfig "expectedResponseStatus" sc).bind fun sc =>
    checkIsRequired defaultServiceConfig sc
  else
    some serviceConfig

/-- Lines 28-59: the consumed-services pass. -/
def validateConsumedServices (env : Env) (config : JSValue) : Option JSValue := do
  let consumedServices ← getProp config "consumedServices"
  if truthy consumedServices then
    let defaultServiceConfig ←
      (getProp env.defaultConfig "consumedServices").bind fun d => getProp d "defaultServiceId"
    let consumedServices' ← forEntries (validateService env defaultServiceConfig) consumedServices
    setProp config "consumedServices" consumedServices'
  else
    setProp config "consumedServices" (.obj [])

/-- Lines 70-73: uppercase the request method of an API and fall back to the default
method when the result is not a key of `REQUEST_TYPES` (the key read on line 71 is the
string stored on line 70). -/
def checkApiMethod (env : Env) (defaultApiConfig apiConfig : JSValue) : Option JSValue := do
  let requestMethod ← getProp apiConfig "requestMethod"
  let upper ← callToUpperCase env requestMethod
  let ac ← setProp apiConfig "requestMethod" (.str upper)
  let known ← getProp env.REQUEST_TYPES upper
  if truthy known then some ac
  else
    let d ← getProp defaultApiConfig "requestMethod"
    setProp ac "requestMethod" d

/-- Lines 74-76: `dependsOn` is replaced by `[]` unless it is an array. -/
def checkDependsOn (apiConfig : JSValue) : Option JSValue := do
  let dependsOn ← getProp apiConfig "dependsOn"
  if !truthy dependsOn || !isArray dependsOn then
    setProp apiConfig "dependsOn" (.arr [] [])
  else
    some apiConfig

/-- Lines 65-76: the body of the apis loop for one entry. -/
def validateApi (env : Env) (defaultApiConfig apiConfig : JSValue) : Option JSValue :=
  (assignOrDefault defaultApiConfig "apiName" apiConfig).bind fun ac =>
  (assignIfFalsy defaultApiConfig "requestMethod" ac).bind fun ac =>
  (checkApiMethod env defaultApiConfig ac).bind fun ac =>
  checkDependsOn ac

/-- Lines 61-81: the apis pass. -/
def validateApis (env : Env) (config : JSValue) : Option JSValue := do
  let apis ← getProp config "apis"
  if truthy apis then
    let defaultApiConfig ←
      (getProp env.defaultConfig "apis").bind fun d => getProp d "defaultApi"
    let apis' ← forEntries (validateApi env defaultApiConfig) apis
    setProp config "apis" apis'
  else
    setProp config "apis" (.obj [])

/-- The function `configValidator` of `src/configValidator.js`. -/
def configValidator (env : Env) (config : JSValue) : Option JSValue :=
  if truthy config then do
    let config ← setProp config "isDefault" (.bool false)
    let config ← assignOrDefault env.defaultConfig "apiPath" config
    let config ← assignOrDefault env.defaultConfig "consumedServicesAsyncMode" config
    let config ← validateResponse env config
    let config ← validateConsumedServices env config
    validateApis env config
  else
    some env.defaultConfig

/-- The value `config.response` holds after lines 18-26, as a function of the value it held
before. -/
def responseValue (env : Env) (response : JSValue) : Option JSValue :=
  if truthy response then
    (getProp response "statusCodes").bind fun statusCodes =>
      if typeOf statusCodes ≠ "boolean" then
        ((getProp env.defaultConfig "response").bind fun r => getProp r "statusCodes").bind
          fun d => setProp response "statusCodes" d
      else some response
  else getProp env.defaultConfig "response"

/-- The value `config.consumedServices` holds after lines 28-59, as a function of the value
it held before. -/
def consumedServicesValue (env : Env) (consumedServices : JSValue) : Option JSValue :=
  if truthy consumedServices then
    ((getProp env.defaultConfig "consumedServices").bind fun d =>
      getProp d "defaultServiceId").bind fun defaultServiceConfig =>
        forEntries (validateService env defaultServiceConfig) consumedServices
  else some (.obj [])

/-- The value `config.apis` holds after lines 61-81, as a function of the value it held
before. -/
def apisValue (env : Env) (apis : JSValue) : Option JSValue :=
  if truthy apis then
    ((getProp env.defaultConfig "apis").bind fun d => getProp d "defaultApi").bind
      fun defaultApiConfig => forEntries (validateApi env defaultApiConfig) apis
  else some (.obj [])

/-- The property list of the validated configuration, given the five computed values. -/
def normalizedProps (ps : List (String × JSValue)) (apiPath asyncMode response services
    apis : JSValue) : List (String × JSValue) :=
  assocSet (assocSet (assocSet (assocSet (assocSet (assocSet ps "isDefault" (.bool false))
    "apiPath" apiPath) "consumedServicesAsyncMode" asyncMode) "response" response)
    "consumedServices" services) "apis" apis

/-- The value `serviceConfig.isRequired` holds after lines 52-54. -/
def isRequiredValue (defaults v : JSValue) : Option JSValue :=
  if (!truthy v || typeOf v ≠ "boolean") then getProp defaults "isRequired" else some v

/-- The property list of a validated service entry, given the five computed values. -/
def serviceProps (ps : List (String × JSValue)) (isValid serviceName requestMethod
    expectedResponseStatus isRequired : JSValue) : List (String × JSValue) :=
  assocSet (assocSet (assocSet (assocSet (assocSet ps "isValid" isValid)
    "serviceName" serviceName) "requestMethod" requestMethod)
    "expectedResponseStatus" expectedResponseStatus) "isRequired" isRequired

/-- The property list of a validated API entry, given the three computed values. -/
def apiProps (ps : List (String × JSValue)) (apiName requestMethod dependsOn : JSValue) :
    List (String × JSValue) :=
  assocSet (assocSet (assocSet ps "apiName" apiName) "requestMethod" requestMethod)
    "dependsOn" dependsOn

/-- The template `defaultConfig.consumedServices.defaultServiceId` (line 30). -/
def defaultServiceConfig (env : Env) : Option JSValue :=
  (getProp env.defaultConfig "consumedServices").bind fun d => getProp d "defaultServiceId"

/-- The template `defaultConfig.apis.defaultApi` (line 63). -/
def defaultApiConfig (env : Env) : Option JSValue :=
  (getProp env.defaultConfig "apis").bind fun d => getProp d "defaultApi"

/-- A sequence of property assignments, applied from left to right. -/
def setMany (ps : List (String × JSValue)) (updates : List (String × JSValue)) :
    List (String × JSValue) :=
  updates.foldl (fun p u => assocSet p u.1 u.2) ps

/-- What the spec requires of the collaborators of the validator: uppercasing is idempotent
and keeps a non-empty string non-empty; the default configuration and the request-method
table are objects; the default configuration has a `response` block with a boolean
`statusCodes`, the service template `consumedServices.defaultServiceId` and the API template
`apis.defaultApi`, and the `requestMethod` of either template is a string in uppercase
form. -/
structure WellFormedEnv (env : Env) : Prop where
  upper_idem : ∀ s, env.toUpperCase (env.toUpperCase s) = env.toUpperCase s
  upper_nonempty : ∀ s, env.toUpperCase s = "" → s = ""
  response : ∃ r, getProp env.defaultConfig "response" = some r ∧ isObject r = true ∧
    typeOf (assocGet (props r) "statusCodes") = "boolean"
  defaultConfig_object : isObject env.defaultConfig = true
  requestTypes_object : isObject env.REQUEST_TYPES = true
  serviceTemplate : ∃ d m, defaultServiceConfig env = some d ∧
    getProp d "requestMethod" = some (.str m) ∧ env.toUpperCase m = m
  apiTemplate : ∃ d m, defaultApiConfig env = some d ∧
    getProp d "requestMethod" = some (.str m) ∧ env.toUpperCase m = m

/-- An entry whose `requestMethod` the validator can uppercase: it is a string, or it is
falsy and will be replaced by the template's method. -/
def methodUsable (entry : JSValue) : Bool :=
  match assocGet (props entry) "requestMethod" with
  | .str _ => true
  | v => !truthy v

/-- A mapping of entries as the data model describes it: absent (falsy), or an object each
of whose entries is an object with a usable `requestMethod`; when `skipFalsy` is set, falsy
entries are allowed as well (the services loop skips them). -/
def wellTypedEntries (skipFalsy : Bool) : JSValue → Bool
  | .obj ps => ps.all fun p => (skipFalsy && !truthy p.2) || (isObject p.2 && methodUsable p.2)
  | v => !truthy v

/-- A configuration as the data model describes it: an object whose `consumedServices` and
`apis`, when present, are mappings of well-typed entries. -/
def wellTypedConfig (config : JSValue) : Bool :=
  isObject config
    && wellTypedEntries true (assocGet (props config) "consumedServices")
    && wellTypedEntries false (assocGet (props config) "apis")

/-! ## A concrete environment -/

/-- Modelled from the spec: the default configuration (`src/configs/defaultConfig.js`, not
among the sources).  It carries the fields the spec requires of it: `isDefault = true`,
`apiPath`, `consumedServicesAsyncMode`, `response.statusCodes`, `systemInformation` with
`common`, `cpu`, `memory` and no `services`, the template `consumedServices.defaultServiceId`
and the template `apis.defaultApi` with one dependency.  The spec does not fix the values;
the ones below are examples. -/
def defaultConfig : JSValue :=
  .obj [
    ("isDefault", .bool true),
    ("apiPath", .str "/status"),
    ("response", .obj [("statusCodes", .bool true)]),
    ("systemInformation",
      .obj [("common", .bool true), ("cpu", .bool true), ("memory", .bool true)]),
    ("consumedServicesAsyncMode", .bool true),
    ("consumedServices",
      .obj [("defaultServiceId",
        .obj [("serviceName", .str "Unknown service name"),
              ("requestMethod", .str "GET"),
              ("expectedResponseStatus", .num 200),
              ("isRequired", .bool true)])]),
    ("apis",
      .obj [("defaultApi",
        .obj [("apiName", .str "Unknown API name"),
              ("requestMethod", .str "GET"),
              ("dependsOn",
                .arr [.obj [("serviceId", .str "defaultServiceId"),
                            ("isRequired", .bool true)]] [])])])]

/-- Modelled from the spec: the request-method enumeration (`REQUEST_TYPES` of
`src/utils/apiHelper.js`, not among the sources), a mapping from uppercase verb names to
truthy markers that includes `GET`. -/
def REQUEST_TYPES : JSValue :=
  .obj [("GET", .str "GET"), ("POST", .str "POST"), ("PUT", .str "PUT"),
        ("DELETE", .str "DELETE"), ("PATCH", .str "PATCH"), ("HEAD", .str "HEAD")]

/-- Uppercasing of the letters `a` to `z`: what `String.prototype.toUpperCase` does on
ASCII strings. -/
def asciiToUpperCase (s : String) : String :=
  ⟨s.data.map Char.toUpper⟩

/-- The environment made of the example constants above. -/
def exampleEnv : Env :=
  { defaultConfig := defaultConfig, REQUEST_TYPES := REQUEST_TYPES,
    toUpperCase := asciiToUpperCase }

/-- The configuration the test suite starts every case from (`customConfig`, test lines
11-26). -/
def customConfig : JSValue :=
  .obj [
    ("isDefault", .bool false),
    ("apiPath", .str "/test-status"),
    ("mode", .str "ON_REQUEST"),
    ("consumedServicesAsyncMode", .bool true),
    ("consumedServices",
      .obj [("mockId",
        .obj [("serviceName", .str "mock service"),
              ("healthCheckUrl", .str "/"),
              ("requestMethod", .str "GET"),
              ("expectedResponseStatus", .str "200"),
              ("isRequired", .bool true)])]),
    ("apis", .obj [])]

/-- The test configuration after an assignment `customConfig.key = value`, the way the test
cases prepare their inputs. -/
def customConfigWith (key : String) (value : JSValue) : JSValue :=
  withProps customConfig (assocSet (props customConfig) key value)

/-! ## Property lists -/

@[simp] theorem assocGet_nil (k : String) : assocGet [] k = .undefined := rfl

@[simp] theorem assocGet_assocSet_same (ps : List (String × JSValue)) (k : String) (v : JSValue) :
    assocGet (assocSet ps k v) k = v := by
  induction ps with
  | nil => simp [assocSet, assocGet]
  | cons p rest ih =>
    obtain ⟨k', v'⟩ := p
    by_cases h : k' = k <;> simp [assocSet, assocGet, h, ih]

@[simp] theorem assocGet_assocSet_ne (ps : List (String × JSValue)) (k k' : String) (v : JSValue)
    (h : k ≠ k') : assocGet (assocSet ps k v) k' = assocGet ps k' := by
  induction ps with
  | nil => simp [assocSet, assocGet, h]
  | cons p rest ih =>
    obtain ⟨k₀, v₀⟩ := p
    by_cases h₀ : k₀ = k
    · subst h₀; simp [assocSet, assocGet, h]
    · by_cases h₁ : k₀ = k'
      · subst h₁; simp [assocSet, assocGet, h₀]
      · simp [assocSet, assocGet, h₀, h₁, ih]

@[simp] theorem assocSet_assocSet_same (ps : List (String × JSValue)) (k : String) (v w : JSValue) :
    assocSet (assocSet ps k v) k w = assocSet ps k w := by
  induction ps with
  | nil => simp [assocSet]
  | cons p rest ih =>
    obtain ⟨k', v'⟩ := p
    by_cases h : k' = k <;> simp [assocSet, h, ih]

theorem assocSet_assocGet_self (ps : List (String × JSValue)) (k : String)
    (h : hasKey ps k = true) : assocSet ps k (assocGet ps k) = ps := by
  induction ps with
  | nil => simp [hasKey] at h
  | cons p rest ih =>
    obtain ⟨k', v'⟩ := p
    by_cases h' : k' = k
    · simp [assocSet, assocGet, h']
    · simp [hasKey, h'] at h
      simp [assocSet, assocGet, h', ih h]

@[simp] theorem hasKey_assocSet_same (ps : List (String × JSValue)) (k : String) (v : JSValue) :
    hasKey (assocSet ps k v) k = true := by
  induction ps with
  | nil => simp [assocSet, hasKey]
  | cons p rest ih =>
    obtain ⟨k', v'⟩ := p
    by_cases h : k' = k <;> simp [assocSet, hasKey, h, ih]

@[simp] theorem hasKey_assocSet_ne (ps : List (String × JSValue)) (k k' : String) (v : JSValue)
    (h : k ≠ k') : hasKey (assocSet ps k v) k' = hasKey ps k' := by
  induction ps with
  | nil => simp [assocSet, hasKey, h]
  | cons p rest ih =>
    obtain ⟨k₀, v₀⟩ := p
    by_cases h₀ : k₀ = k
    · subst h₀; simp [assocSet, hasKey, h]
    · simp [assocSet, hasKey, h₀, ih]

theorem hasKey_of_truthy (ps : List (String × JSValue)) (k : String)
    (h : truthy (assocGet ps k) = true) : hasKey ps k = true := by
  induction ps with
  | nil => simp [assocGet, truthy] at h
  | cons p rest ih =>
    obtain ⟨k', v'⟩ := p
    by_cases h' : k' = k
    · simp [hasKey, h']
    · simp [assocGet, h'] at h
      simp [hasKey, h', ih h]

theorem assocSet_of_assocGet (ps : List (String × JSValue)) (k : String) (v : JSValue)
    (hk : hasKey ps k = true) (hv : assocGet ps k = v) : assocSet ps k v = ps := by
  subst hv; exact assocSet_assocGet_self ps k hk

/-! ## Objects -/

@[simp] theorem props_withProps (c : JSValue) (ps : List (String × JSValue))
    (h : isObject c = true) : props (withProps c ps) = ps := by
  cases c <;> simp_all [isObject, props, withProps]

@[simp] theorem isObject_withProps (c : JSValue) (ps : List (String × JSValue)) :
    isObject (withProps c ps) = isObject c := by
  cases c <;> simp [isObject, withProps]

@[simp] theorem withProps_withProps (c : JSValue) (ps qs : List (String × JSValue)) :
    withProps (withProps c ps) qs = withProps c qs := by
  cases c <;> simp [withProps]

@[simp] theorem withProps_props (c : JSValue) : withProps c (props c) = c := by
  cases c <;> simp [withProps, props]

@[simp] theorem truthy_of_isObject (c : JSValue) (h : isObject c = true) : truthy c = true := by
  cases c <;> simp_all [isObject, truthy]

theorem getProp_of_isObject (c : JSValue) (k : String) (h : isObject c = true) :
    getProp c k = some (assocGet (props c) k) := by
  cases c <;> simp_all [isObject, getProp, props]

theorem setProp_of_isObject (c : JSValue) (k : String) (v : JSValue) (h : isObject c = true) :
    setProp c k v = some (withProps c (assocSet (props c) k v)) := by
  cases c <;> simp_all [isObject, setProp, props, withProps]

/-! ## The steps of the validator on objects -/

theorem assignOrDefault_of_isObject (d : JSValue) (key : String) (c : JSValue)
    (h : isObject c = true) :
    assignOrDefault d key c =
      (orElseDefault (assocGet (props c) key) (getProp d key)).map fun v =>
        withProps c (assocSet (props c) key v) := by
  simp only [assignOrDefault, getProp_of_isObject c key h, bind, Option.bind]
  cases orElseDefault (assocGet (props c) key) (getProp d key) <;>
    simp [setProp_of_isObject _ _ _ h]

theorem assignIfFalsy_of_isObject (d : JSValue) (key : String) (c : JSValue)
    (h : isObject c = true) :
    assignIfFalsy d key c =
      if truthy (assocGet (props c) key) then some c
      else (getProp d key).map fun v => withProps c (assocSet (props c) key v) := by
  simp only [assignIfFalsy, getProp_of_isObject c key h, bind, Option.bind]
  split
  · rfl
  · cases getProp d key <;> simp [setProp_of_isObject _ _ _ h]

theorem checkHealthCheckUrl_of_isObject (c : JSValue) (h : isObject c = true) :
    checkHealthCheckUrl c =
      some (withProps c (if truthy (assocGet (props c) "healthCheckUrl") then props c
        else assocSet (props c) "isValid" (.bool false))) := by
  simp only [checkHealthCheckUrl, getProp_of_isObject c _ h, bind, Option.bind]
  split <;> simp [setProp_of_isObject _ _ _ h]

theorem checkServiceMethod_of_isObject (env : Env) (c : JSValue) (h : isObject c = true) :
    checkServiceMethod env c =
      (callToUpperCase env (assocGet (props c) "requestMethod")).bind fun upper =>
        (getProp env.REQUEST_TYPES upper).map fun known =>
          withProps c (if truthy known then assocSet (props c) "requestMethod" (.str upper)
            else assocSet (assocSet (props c) "requestMethod" (.str upper))
              "isValid" (.bool false)) := by
  simp only [checkServiceMethod, getProp_of_isObject c _ h, bind, Option.bind]
  cases callToUpperCase env (assocGet (props c) "requestMethod") with
  | none => rfl
  | some u =>
    simp only [setProp_of_isObject _ _ _ h]
    cases getProp env.REQUEST_TYPES u with
    | none => rfl
    | some known =>
      by_cases hk : truthy known = true <;> simp [hk, setProp_of_isObject, h]

theorem checkIsRequired_of_isObject (d c : JSValue) (h : isObject c = true) :
    checkIsRequired d c =
      if (!truthy (assocGet (props c) "isRequired")
          || typeOf (assocGet (props c) "isRequired") ≠ "boolean") then
        (getProp d "isRequired").map fun v => withProps c (assocSet (props c) "isRequired" v)
      else some c := by
  simp only [checkIsRequired, getProp_of_isObject c _ h, bind, Option.bind]
  split
  · cases getProp d "isRequired" <;> simp [setProp_of_isObject, h]
  · rfl

theorem checkApiMethod_of_isObject (env : Env) (d c : JSValue) (h : isObject c = true) :
    checkApiMethod env d c =
      (callToUpperCase env (assocGet (props c) "requestMethod")).bind fun upper =>
        (getProp env.REQUEST_TYPES upper).bind fun known =>
          if truthy known then
            some (withProps c (assocSet (props c) "requestMethod" (.str upper)))
          else (getProp d "requestMethod").map fun v =>
            withProps c (assocSet (props c) "requestMethod" v) := by
  simp only [checkApiMethod, getProp_of_isObject c _ h, bind, Option.bind]
  cases callToUpperCase env (assocGet (props c) "requestMethod") with
  | none => rfl
  | some u =>
    simp only [setProp_of_isObject _ _ _ h]
    cases getProp env.REQUEST_TYPES u with
    | none => rfl
    | some known =>
      by_cases hk : truthy known = true
      · simp [hk]
      · cases getProp d "requestMethod" <;> simp [hk, setProp_of_isObject, h]

theorem checkDependsOn_of_isObject (c : JSValue) (h : isObject c = true) :
    checkDependsOn c =
      some (if isArray (assocGet (props c) "dependsOn") then c
        else withProps c (assocSet (props c) "dependsOn" (.arr [] []))) := by
  simp only [checkDependsOn, getProp_of_isObject c _ h, bind, Option.bind]
  cases hv : assocGet (props c) "dependsOn" <;>
    simp [truthy, isArray, setProp_of_isObject, h]

/-! ## The passes of the validator on an object -/

theorem bind_some_eq_map {α β : Type} (x : Option α) (f : α → β) :
    (x.bind fun a => some (f a)) = x.map f := by
  cases x <;> rfl

theorem validateResponse_of_isObject (env : Env) (c : JSValue) (h : isObject c = true) :
    validateResponse env c =
      (responseValue env (assocGet (props c) "response")).map fun r =>
        withProps c (assocSet (props c) "response" r) := by
  simp only [validateResponse, responseValue, getProp_of_isObject c _ h, Option.bind_eq_bind,
    Option.some_bind]
  by_cases ht : truthy (assocGet (props c) "response") = true
  · simp only [ht, if_true]
    cases getProp (assocGet (props c) "response") "statusCodes" with
    | none => rfl
    | some sc =>
      by_cases hb : typeOf sc = "boolean"
      · simp [hb, assocSet_assocGet_self _ _ (hasKey_of_truthy _ _ ht)]
      · simp only [hb, ne_eq, not_false_eq_true, if_true, Option.some_bind]
        cases (getProp env.defaultConfig "response").bind fun r => getProp r "statusCodes" with
        | none => rfl
        | some d =>
          simp only [Option.some_bind, setProp_of_isObject _ _ _ h, bind_some_eq_map]
  · simp only [ht, Bool.false_eq_true, if_false]
    cases getProp env.defaultConfig "response" <;> simp [setProp_of_isObject, h]

theorem validateConsumedServices_of_isObject (env : Env) (c : JSValue) (h : isObject c = true) :
    validateConsumedServices env c =
      (consumedServicesValue env (assocGet (props c) "consumedServices")).map fun v =>
        withProps c (assocSet (props c) "consumedServices" v) := by
  simp only [validateConsumedServices, consumedServicesValue, getProp_of_isObject c _ h,
    Option.bind_eq_bind, Option.some_bind]
  by_cases ht : truthy (assocGet (props c) "consumedServices") = true
  · simp only [ht, if_true]
    cases (getProp env.defaultConfig "consumedServices").bind
        fun d => getProp d "defaultServiceId" with
    | none => rfl
    | some d =>
      simp only [Option.some_bind, setProp_of_isObject _ _ _ h, bind_some_eq_map]
  · simp [ht, setProp_of_isObject, h]

theorem validateApis_of_isObject (env : Env) (c : JSValue) (h : isObject c = true) :
    validateApis env c =
      (apisValue env (assocGet (props c) "apis")).map fun v =>
        withProps c (assocSet (props c) "apis" v) := by
  simp only [validateApis, apisValue, getProp_of_isObject c _ h, Option.bind_eq_bind,
    Option.some_bind]
  by_cases ht : truthy (assocGet (props c) "apis") = true
  · simp only [ht, if_true]
    cases (getProp env.defaultConfig "apis").bind fun d => getProp d "defaultApi" with
    | none => rfl
    | some d =>
      simp only [Option.some_bind, setProp_of_isObject _ _ _ h, bind_some_eq_map]
  · simp [ht, setProp_of_isObject, h]

/-- The validator on an object: six fields are assigned, each from its own previous
value, and nothing else is touched. -/
theorem configValidator_of_isObject (env : Env) (c : JSValue) (h : isObject c = true) :
    configValidator env c =
      (orElseDefault (assocGet (props c) "apiPath") (getProp env.defaultConfig "apiPath")).bind
      fun apiPath =>
      (orElseDefault (assocGet (props c) "consumedServicesAsyncMode")
        (getProp env.defaultConfig "consumedServicesAsyncMode")).bind fun asyncMode =>
      (responseValue env (assocGet (props c) "response")).bind fun response =>
      (consumedServicesValue env (assocGet (props c) "consumedServices")).bind fun services =>
      (apisValue env (assocGet (props c) "apis")).map fun apis =>
        withProps c (normalizedProps (props c) apiPath asyncMode response services apis) := by
  simp only [configValidator, truthy_of_isObject c h, if_true, setProp_of_isObject _ _ _ h,
    Option.bind_eq_bind, Option.some_bind, normalizedProps]
  rw [assignOrDefault_of_isObject _ _ _ (by simp [h])]
  simp only [props_withProps _ _ h, withProps_withProps]
  rw [assocGet_assocSet_ne _ _ _ _ (by decide)]
  cases orElseDefault (assocGet (props c) "apiPath") (getProp env.defaultConfig "apiPath") with
  | none => rfl
  | some apiPath =>
    simp only [Option.map_some', Option.some_bind]
    rw [assignOrDefault_of_isObject _ _ _ (by simp [h])]
    simp only [props_withProps _ _ h, withProps_withProps]
    rw [assocGet_assocSet_ne _ _ _ _ (by decide), assocGet_assocSet_ne _ _ _ _ (by decide)]
    cases orElseDefault (assocGet (props c) "consumedServicesAsyncMode")
        (getProp env.defaultConfig "consumedServicesAsyncMode") with
    | none => rfl
    | some asyncMode =>
      simp only [Option.map_some', Option.some_bind]
      rw [validateResponse_of_isObject _ _ (by simp [h])]
      simp only [props_withProps _ _ h, withProps_withProps]
      rw [assocGet_assocSet_ne _ _ _ _ (by decide), assocGet_assocSet_ne _ _ _ _ (by decide),
        assocGet_assocSet_ne _ _ _ _ (by decide)]
      cases responseValue env (assocGet (props c) "response") with
      | none => rfl
      | some response =>
        simp only [Option.map_some', Option.some_bind]
        rw [validateConsumedServices_of_isObject _ _ (by simp [h])]
        simp only [props_withProps _ _ h, withProps_withProps]
        rw [assocGet_assocSet_ne _ _ _ _ (by decide), assocGet_assocSet_ne _ _ _ _ (by decide),
          assocGet_assocSet_ne _ _ _ _ (by decide), assocGet_assocSet_ne _ _ _ _ (by decide)]
        cases consumedServicesValue env (assocGet (props c) "consumedServices") with
        | none => rfl
        | some services =>
          simp only [Option.map_some', Option.some_bind]
          rw [validateApis_of_isObject _ _ (by simp [h])]
          simp only [props_withProps _ _ h, withProps_withProps]
          rw [assocGet_assocSet_ne _ _ _ _ (by decide), assocGet_assocSet_ne _ _ _ _ (by decide),
            assocGet_assocSet_ne _ _ _ _ (by decide), assocGet_assocSet_ne _ _ _ _ (by decide),
            assocGet_assocSet_ne _ _ _ _ (by decide)]

/-! ## The loop bodies on one entry -/

theorem assocSet_comm (ps : List (String × JSValue)) (k k' : String) (v w : JSValue)
    (hk : hasKey ps k = true) (hne : k ≠ k') :
    assocSet (assocSet ps k' w) k v = assocSet (assocSet ps k v) k' w := by
  induction ps with
  | nil => simp [hasKey] at hk
  | cons p rest ih =>
    obtain ⟨k₀, v₀⟩ := p
    by_cases h₀ : k₀ = k
    · subst h₀
      simp [assocSet, hne]
    · simp only [hasKey, h₀, decide_False, Bool.false_or] at hk
      by_cases h₁ : k₀ = k'
      · subst h₁
        simp [assocSet, h₀]
      · simp [assocSet, h₀, h₁, ih hk]

theorem assocSet_truthy_self (ps : List (String × JSValue)) (k : String)
    (h : truthy (assocGet ps k) = true) : assocSet ps k (assocGet ps k) = ps :=
  assocSet_assocGet_self ps k (hasKey_of_truthy ps k h)

theorem getProp_of_primitive (v : JSValue) (k : String) (hn : getProp v k ≠ none)
    (hp : isObject v = false) : getProp v k = some .undefined := by
  cases v <;> simp_all [getProp, isObject]

theorem setProp_of_primitive (v : JSValue) (k : String) (x : JSValue) (hn : getProp v k ≠ none)
    (hp : isObject v = false) : setProp v k x = some v := by
  cases v <;> simp_all [getProp, setProp, isObject]

theorem service_method_step (env : Env) (d sc : JSValue) (P : List (String × JSValue))
    (K : JSValue → Option JSValue) (h : isObject sc = true) :
    ((assignIfFalsy d "requestMethod" (withProps sc P)).bind fun a =>
        (checkServiceMethod env a).bind K) =
      (orElseDefault (assocGet P "requestMethod") (getProp d "requestMethod")).bind fun m =>
      (callToUpperCase env m).bind fun u =>
      (getProp env.REQUEST_TYPES u).bind fun known =>
        K (withProps sc (if truthy known then assocSet P "requestMethod" (.str u)
          else assocSet (assocSet P "requestMethod" (.str u)) "isValid" (.bool false))) := by
  rw [assignIfFalsy_of_isObject _ _ _ (by simp [h])]
  simp only [props_withProps _ _ h, withProps_withProps, orElseDefault]
  by_cases hm : truthy (assocGet P "requestMethod") = true
  · simp only [hm, if_true, Option.some_bind]
    rw [checkServiceMethod_of_isObject _ _ (by simp [h])]
    simp only [props_withProps _ _ h, withProps_withProps]
    cases callToUpperCase env (assocGet P "requestMethod") with
    | none => rfl
    | some u =>
      simp only [Option.some_bind]
      cases getProp env.REQUEST_TYPES u <;> rfl
  · simp only [hm, Bool.false_eq_true, if_false]
    cases getProp d "requestMethod" with
    | none => rfl
    | some dm =>
      simp only [Option.map_some', Option.some_bind]
      rw [checkServiceMethod_of_isObject _ _ (by simp [h])]
      simp only [props_withProps _ _ h, withProps_withProps, assocGet_assocSet_same,
        assocSet_assocSet_same]
      cases callToUpperCase env dm with
      | none => rfl
      | some u =>
        simp only [Option.some_bind]
        cases getProp env.REQUEST_TYPES u <;> rfl

theorem service_tail_step (d sc : JSValue) (P : List (String × JSValue))
    (h : isObject sc = true) :
    ((assignIfFalsy d "expectedResponseStatus" (withProps sc P)).bind fun a =>
        checkIsRequired d a) =
      (orElseDefault (assocGet P "expectedResponseStatus")
        (getProp d "expectedResponseStatus")).bind fun e =>
      (isRequiredValue d (assocGet P "isRequired")).map fun r =>
        withProps sc (assocSet (assocSet P "expectedResponseStatus" e) "isRequired" r) := by
  have tail : ∀ Q : List (String × JSValue),
      checkIsRequired d (withProps sc Q) =
        (isRequiredValue d (assocGet Q "isRequired")).map fun r =>
          withProps sc (assocSet Q "isRequired" r) := by
    intro Q
    rw [checkIsRequired_of_isObject _ _ (by simp [h])]
    simp only [props_withProps _ _ h, withProps_withProps, isRequiredValue]
    by_cases hc : (!truthy (assocGet Q "isRequired")
        || decide (typeOf (assocGet Q "isRequired") ≠ "boolean")) = true
    · simp only [hc, if_true]
    · simp only [hc, Bool.false_eq_true, if_false, Option.map_some']
      have ht : truthy (assocGet Q "isRequired") = true := by
        simp only [Bool.or_eq_true, not_or, Bool.not_eq_true', Bool.not_eq_true,
          Bool.not_eq_false] at hc
        simpa using hc.1
      rw [assocSet_truthy_self _ _ ht]
  rw [assignIfFalsy_of_isObject _ _ _ (by simp [h])]
  simp only [props_withProps _ _ h, withProps_withProps, orElseDefault]
  by_cases he : truthy (assocGet P "expectedResponseStatus") = true
  · simp only [he, if_true, Option.some_bind, tail, assocSet_truthy_self _ _ he]
  · simp only [he, Bool.false_eq_true, if_false]
    cases getProp d "expectedResponseStatus" with
    | none => rfl
    | some de =>
      simp only [Option.map_some', Option.some_bind, tail]
      rw [assocGet_assocSet_ne _ _ _ _ (by decide)]

theorem validateService_of_isObject (env : Env) (d sc : JSValue) (h : isObject sc = true) :
    validateService env d sc =
      (orElseDefault (assocGet (props sc) "serviceName") (getProp d "serviceName")).bind
      fun serviceName =>
      (orElseDefault (assocGet (props sc) "requestMethod") (getProp d "requestMethod")).bind
      fun method =>
      (callToUpperCase env method).bind fun upper =>
      (getProp env.REQUEST_TYPES upper).bind fun known =>
      (orElseDefault (assocGet (props sc) "expectedResponseStatus")
        (getProp d "expectedResponseStatus")).bind fun expectedResponseStatus =>
      (isRequiredValue d (assocGet (props sc) "isRequired")).map fun isRequired =>
        withProps sc (serviceProps (props sc)
          (.bool (truthy (assocGet (props sc) "healthCheckUrl") && truthy known))
          serviceName (.str upper) expectedResponseStatus isRequired) := by
  simp only [validateService, truthy_of_isObject sc h, if_true, setProp_of_isObject _ _ _ h,
    Option.some_bind]
  rw [assignOrDefault_of_isObject _ _ _ (by simp [h])]
  simp only [props_withProps _ _ h, withProps_withProps]
  rw [assocGet_assocSet_ne _ _ _ _ (by decide)]
  cases orElseDefault (assocGet (props sc) "serviceName") (getProp d "serviceName") with
  | none => rfl
  | some sn =>
    simp only [Option.map_some', Option.some_bind]
    rw [checkHealthCheckUrl_of_isObject _ (by simp [h])]
    simp only [props_withProps _ _ h, withProps_withProps, Option.some_bind]
    rw [assocGet_assocSet_ne _ _ _ _ (by decide), assocGet_assocSet_ne _ _ _ _ (by decide)]
    have hp3 : (if truthy (assocGet (props sc) "healthCheckUrl") = true then
          assocSet (assocSet (props sc) "isValid" (.bool true)) "serviceName" sn
        else assocSet (assocSet (assocSet (props sc) "isValid" (.bool true)) "serviceName" sn)
          "isValid" (.bool false)) =
        assocSet (assocSet (props sc) "isValid"
          (.bool (truthy (assocGet (props sc) "healthCheckUrl")))) "serviceName" sn := by
      by_cases hh : truthy (assocGet (props sc) "healthCheckUrl") = true
      · simp [hh]
      · simp only [hh, Bool.false_eq_true, if_false]
        rw [assocSet_comm _ _ _ _ _ (by simp) (by decide), assocSet_assocSet_same]
    rw [hp3]
    generalize truthy (assocGet (props sc) "healthCheckUrl") = hcu
    rw [service_method_step env d sc _ _ h]
    rw [assocGet_assocSet_ne _ _ _ _ (by decide), assocGet_assocSet_ne _ _ _ _ (by decide)]
    cases orElseDefault (assocGet (props sc) "requestMethod") (getProp d "requestMethod") with
    | none => rfl
    | some m =>
      simp only [Option.some_bind]
      cases callToUpperCase env m with
      | none => rfl
      | some u =>
        simp only [Option.some_bind]
        cases getProp env.REQUEST_TYPES u with
        | none => rfl
        | some known =>
          simp only [Option.some_bind]
          have hp5 : (if truthy known = true then
                assocSet (assocSet (assocSet (props sc) "isValid" (.bool hcu))
                  "serviceName" sn) "requestMethod" (.str u)
              else assocSet (assocSet (assocSet (assocSet (props sc) "isValid" (.bool hcu))
                  "serviceName" sn) "requestMethod" (.str u)) "isValid" (.bool false)) =
              assocSet (assocSet (assocSet (props sc) "isValid"
                (.bool (hcu && truthy known))) "serviceName" sn) "requestMethod" (.str u) := by
            by_cases hk : truthy known = true
            · simp [hk]
            · simp only [hk, Bool.false_eq_true, if_false]
              rw [assocSet_comm _ "isValid" "requestMethod" _ _ (by simp) (by decide),
                assocSet_comm _ "isValid" "serviceName" _ _ (by simp) (by decide),
                assocSet_assocSet_same]
              simp
          rw [hp5, service_tail_step d sc _ h]
          rw [assocGet_assocSet_ne _ _ _ _ (by decide), assocGet_assocSet_ne _ _ _ _ (by decide),
            assocGet_assocSet_ne _ _ _ _ (by decide), assocGet_assocSet_ne _ _ _ _ (by decide),
            assocGet_assocSet_ne _ _ _ _ (by decide), assocGet_assocSet_ne _ _ _ _ (by decide)]
          rfl

theorem api_method_step (env : Env) (d ac : JSValue) (P : List (String × JSValue))
    (K : JSValue → Option JSValue) (h : isObject ac = true) :
    ((assignIfFalsy d "requestMethod" (withProps ac P)).bind fun a =>
        (checkApiMethod env d a).bind K) =
      (orElseDefault (assocGet P "requestMethod") (getProp d "requestMethod")).bind fun m =>
      (callToUpperCase env m).bind fun u =>
      (getProp env.REQUEST_TYPES u).bind fun known =>
      (if truthy known then some (.str u) else getProp d "requestMethod").bind fun v =>
        K (withProps ac (assocSet P "requestMethod" v)) := by
  rw [assignIfFalsy_of_isObject _ _ _ (by simp [h])]
  simp only [props_withProps _ _ h, withProps_withProps, orElseDefault]
  by_cases hm : truthy (assocGet P "requestMethod") = true
  · simp only [hm, if_true, Option.some_bind]
    rw [checkApiMethod_of_isObject _ _ _ (by simp [h])]
    simp only [props_withProps _ _ h, withProps_withProps]
    cases callToUpperCase env (assocGet P "requestMethod") with
    | none => rfl
    | some u =>
      simp only [Option.some_bind]
      cases getProp env.REQUEST_TYPES u with
      | none => rfl
      | some known =>
        simp only [Option.some_bind]
        by_cases hk : truthy known = true
        · simp only [hk, if_true, Option.some_bind]
        · simp only [hk, Bool.false_eq_true, if_false]
          cases getProp d "requestMethod" <;> rfl
  · simp only [hm, Bool.false_eq_true, if_false]
    cases hd : getProp d "requestMethod" with
    | none => rfl
    | some dm =>
      simp only [Option.map_some', Option.some_bind]
      rw [checkApiMethod_of_isObject _ _ _ (by simp [h])]
      simp only [props_withProps _ _ h, withProps_withProps, assocGet_assocSet_same,
        assocSet_assocSet_same, hd]
      cases callToUpperCase env dm with
      | none => rfl
      | some u =>
        simp only [Option.some_bind]
        cases getProp env.REQUEST_TYPES u with
        | none => rfl
        | some known =>
          simp only [Option.some_bind]
          by_cases hk : truthy known = true
          · simp only [hk, if_true, Option.some_bind]
          · simp only [hk, Bool.false_eq_true, if_false, Option.map_some', Option.some_bind]

theorem checkDependsOn_withProps (ac : JSValue) (P : List (String × JSValue))
    (h : isObject ac = true) :
    checkDependsOn (withProps ac P) =
      some (withProps ac (assocSet P "dependsOn"
        (if isArray (assocGet P "dependsOn") then assocGet P "dependsOn" else .arr [] []))) := by
  rw [checkDependsOn_of_isObject _ (by simp [h])]
  simp only [props_withProps _ _ h, withProps_withProps]
  by_cases ha : isArray (assocGet P "dependsOn") = true
  · have ht : truthy (assocGet P "dependsOn") = true := by
      cases hv : assocGet P "dependsOn" <;> simp_all [isArray, truthy]
    simp only [ha, if_true, assocSet_truthy_self _ _ ht]
  · simp only [ha, Bool.false_eq_true, if_false]

theorem validateApi_of_isObject (env : Env) (d ac : JSValue) (h : isObject ac = true) :
    validateApi env d ac =
      (orElseDefault (assocGet (props ac) "apiName") (getProp d "apiName")).bind fun apiName =>
      (orElseDefault (assocGet (props ac) "requestMethod") (getProp d "requestMethod")).bind
      fun method =>
      (callToUpperCase env method).bind fun upper =>
      (getProp env.REQUEST_TYPES upper).bind fun known =>
      (if truthy known then some (.str upper) else getProp d "requestMethod").map
      fun requestMethod =>
        withProps ac (apiProps (props ac) apiName requestMethod
          (if isArray (assocGet (props ac) "dependsOn") then assocGet (props ac) "dependsOn"
            else .arr [] [])) := by
  simp only [validateApi]
  rw [assignOrDefault_of_isObject _ _ _ h]
  cases orElseDefault (assocGet (props ac) "apiName") (getProp d "apiName") with
  | none => rfl
  | some an =>
    simp only [Option.map_some', Option.some_bind]
    rw [api_method_step env d ac _ _ h, assocGet_assocSet_ne _ _ _ _ (by decide)]
    cases orElseDefault (assocGet (props ac) "requestMethod") (getProp d "requestMethod") with
    | none => rfl
    | some m =>
      simp only [Option.some_bind]
      cases callToUpperCase env m with
      | none => rfl
      | some u =>
        simp only [Option.some_bind]
        cases getProp env.REQUEST_TYPES u with
        | none => rfl
        | some known =>
          simp only [Option.some_bind]
          cases (if truthy known = true then some (JSValue.str u)
              else getProp d "requestMethod") with
          | none => rfl
          | some v =>
            simp only [Option.some_bind, Option.map_some', checkDependsOn_withProps _ _ h]
            rw [assocGet_assocSet_ne _ _ _ _ (by decide),
              assocGet_assocSet_ne _ _ _ _ (by decide)]
            rfl

theorem validateService_none_of_primitive (env : Env) (d sc : JSValue)
    (ht : truthy sc = true) (hp : isObject sc = false) : validateService env d sc = none := by
  have hn : ∀ k, getProp sc k ≠ none := by
    intro k; cases sc <;> simp_all [getProp, truthy]
  have hg : ∀ k, getProp sc k = some .undefined := fun k => getProp_of_primitive sc k (hn k) hp
  have hs : ∀ k x, setProp sc k x = some sc :=
    fun k x => setProp_of_primitive sc k x (hn k) hp
  have hu : truthy .undefined = false := rfl
  simp only [validateService, ht, if_true, hs, Option.some_bind, assignOrDefault, hg,
    Option.bind_eq_bind, orElseDefault, hu, Bool.false_eq_true, if_false]
  cases getProp d "serviceName" with
  | none => rfl
  | some sn =>
    simp only [Option.some_bind, hs, checkHealthCheckUrl, hg, Option.bind_eq_bind, hu,
      Bool.false_eq_true, if_false, assignIfFalsy]
    cases getProp d "requestMethod" with
    | none => rfl
    | some rm =>
      simp only [Option.some_bind, hs, checkServiceMethod, hg, Option.bind_eq_bind,
        callToUpperCase, Option.none_bind]

theorem validateApi_none_of_primitive (env : Env) (d ac : JSValue)
    (hp : isObject ac = false) : validateApi env d ac = none := by
  by_cases hn : getProp ac "apiName" = none
  · simp [validateApi, assignOrDefault, hn]
  · have hn' : ∀ k, getProp ac k ≠ none := by
      intro k; cases ac <;> simp_all [getProp]
    have hg : ∀ k, getProp ac k = some .undefined :=
      fun k => getProp_of_primitive ac k (hn' k) hp
    have hs : ∀ k x, setProp ac k x = some ac :=
      fun k x => setProp_of_primitive ac k x (hn' k) hp
    have hu : truthy .undefined = false := rfl
    simp only [validateApi, assignOrDefault, hg, Option.bind_eq_bind, Option.some_bind,
      orElseDefault, hu, Bool.false_eq_true, if_false]
    cases getProp d "apiName" with
    | none => rfl
    | some an =>
      simp only [Option.some_bind, hs, assignIfFalsy, hg, Option.bind_eq_bind, hu,
        Bool.false_eq_true, if_false]
      cases getProp d "requestMethod" with
      | none => rfl
      | some rm =>
        simp only [Option.some_bind, hs, checkApiMethod, hg, Option.bind_eq_bind,
          callToUpperCase, Option.none_bind]

theorem validateService_isObject (env : Env) (d sc sc' : JSValue) (ht : truthy sc = true)
    (h : validateService env d sc = some sc') : isObject sc = true := by
  by_contra hp
  rw [validateService_none_of_primitive env d sc ht (by simpa using hp)] at h
  exact Option.noConfusion h

theorem validateApi_isObject (env : Env) (d ac ac' : JSValue)
    (h : validateApi env d ac = some ac') : isObject ac = true := by
  by_contra hp
  rw [validateApi_none_of_primitive env d ac (by simpa using hp)] at h
  exact Option.noConfusion h

/-! ## The loops -/

theorem mapValuesM_assocGet (f : JSValue → Option JSValue) (ps ps' : List (String × JSValue))
    (h : mapValuesM f ps = some ps') (k : String) (hk : hasKey ps k = true) :
    f (assocGet ps k) = some (assocGet ps' k) := by
  induction ps generalizing ps' with
  | nil => simp [hasKey] at hk
  | cons p rest ih =>
    obtain ⟨k₀, v₀⟩ := p
    simp only [mapValuesM] at h
    cases hv : f v₀ with
    | none => simp [hv] at h
    | some v' =>
      cases hr : mapValuesM f rest with
      | none => simp [hv, hr] at h
      | some rest' =>
        simp only [hv, hr, Option.some.injEq] at h
        subst h
        by_cases h₀ : k₀ = k
        · simp [assocGet, h₀, hv]
        · simp only [hasKey, h₀, decide_False, Bool.false_or] at hk
          simp [assocGet, h₀, ih rest' hr hk]

theorem mapValuesM_keys (f : JSValue → Option JSValue) (ps ps' : List (String × JSValue))
    (h : mapValuesM f ps = some ps') : ps'.map Prod.fst = ps.map Prod.fst := by
  induction ps generalizing ps' with
  | nil => simp only [mapValuesM, Option.some.injEq] at h; subst h; rfl
  | cons p rest ih =>
    obtain ⟨k₀, v₀⟩ := p
    simp only [mapValuesM] at h
    cases hv : f v₀ with
    | none => simp [hv] at h
    | some v' =>
      cases hr : mapValuesM f rest with
      | none => simp [hv, hr] at h
      | some rest' =>
        simp only [hv, hr, Option.some.injEq] at h
        subst h
        simp [ih rest' hr]

theorem forEntries_obj (f : JSValue → Option JSValue) (ps : List (String × JSValue))
    (v : JSValue) (h : forEntries f (.obj ps) = some v) :
    ∃ ps', v = .obj ps' ∧ mapValuesM f ps = some ps' := by
  simp only [forEntries, Option.map_eq_some'] at h
  obtain ⟨ps', h₁, h₂⟩ := h
  exact ⟨ps', h₂.symm, h₁⟩

/-- What a successful run on an object returns: the six assigned values and the object
carrying them. -/
theorem configValidator_eq_some (env : Env) (c out : JSValue) (ho : isObject c = true)
    (h : configValidator env c = some out) :
    ∃ apiPath asyncMode response services apis,
      orElseDefault (assocGet (props c) "apiPath") (getProp env.defaultConfig "apiPath")
        = some apiPath ∧
      orElseDefault (assocGet (props c) "consumedServicesAsyncMode")
        (getProp env.defaultConfig "consumedServicesAsyncMode") = some asyncMode ∧
      responseValue env (assocGet (props c) "response") = some response ∧
      consumedServicesValue env (assocGet (props c) "consumedServices") = some services ∧
      apisValue env (assocGet (props c) "apis") = some apis ∧
      out = withProps c (normalizedProps (props c) apiPath asyncMode response services apis) := by
  rw [configValidator_of_isObject env c ho] at h
  simp only [Option.bind_eq_some, Option.map_eq_some'] at h
  obtain ⟨ap, h₁, am, h₂, r, h₃, cs, h₄, a, h₅, h₆⟩ := h
  exact ⟨ap, am, r, cs, a, h₁, h₂, h₃, h₄, h₅, h₆.symm⟩

theorem getProp_withProps (c : JSValue) (ps : List (String × JSValue)) (k : String)
    (h : isObject c = true) : getProp (withProps c ps) k = some (assocGet ps k) := by
  rw [getProp_of_isObject _ _ (by simp [h]), props_withProps _ _ h]

theorem normalizedProps_isDefault (ps : List (String × JSValue)) (ap am r cs a : JSValue) :
    assocGet (normalizedProps ps ap am r cs a) "isDefault" = .bool false := by
  simp [normalizedProps]

theorem normalizedProps_apiPath (ps : List (String × JSValue)) (ap am r cs a : JSValue) :
    assocGet (normalizedProps ps ap am r cs a) "apiPath" = ap := by
  simp [normalizedProps]

theorem normalizedProps_asyncMode (ps : List (String × JSValue)) (ap am r cs a : JSValue) :
    assocGet (normalizedProps ps ap am r cs a) "consumedServicesAsyncMode" = am := by
  simp [normalizedProps]

theorem normalizedProps_response (ps : List (String × JSValue)) (ap am r cs a : JSValue) :
    assocGet (normalizedProps ps ap am r cs a) "response" = r := by
  simp [normalizedProps]

theorem normalizedProps_consumedServices (ps : List (String × JSValue))
    (ap am r cs a : JSValue) :
    assocGet (normalizedProps ps ap am r cs a) "consumedServices" = cs := by
  simp [normalizedProps]

theorem normalizedProps_apis (ps : List (String × JSValue)) (ap am r cs a : JSValue) :
    assocGet (normalizedProps ps ap am r cs a) "apis" = a := by
  simp [normalizedProps]

/-- A successful run over a `consumedServices` mapping: the output holds a mapping with the
same keys, and the entry under every key is the loop body's result on the input entry. -/
theorem configValidator_services (env : Env) (config out : JSValue)
    (svcs : List (String × JSValue)) (ho : isObject config = true)
    (hcs : getProp config "consumedServices" = some (.obj svcs))
    (h : configValidator env config = some out) :
    ∃ d svcs', defaultServiceConfig env = some d ∧
      getProp out "consumedServices" = some (.obj svcs') ∧
      mapValuesM (validateService env d) svcs = some svcs' := by
  obtain ⟨ap, am, r, cs, a, -, -, -, h₄, -, rfl⟩ := configValidator_eq_some env config out ho h
  rw [getProp_of_isObject _ _ ho, Option.some.injEq] at hcs
  rw [getProp_withProps _ _ _ ho, normalizedProps_consumedServices]
  rw [hcs] at h₄
  simp only [consumedServicesValue, truthy, if_true, Option.bind_eq_some] at h₄
  obtain ⟨d, hd, hf⟩ := h₄
  obtain ⟨svcs', rfl, hm⟩ := forEntries_obj _ _ _ hf
  exact ⟨d, svcs', by simpa [defaultServiceConfig, Option.bind_eq_some] using hd, rfl, hm⟩

/-- A successful run over an `apis` mapping, as for `consumedServices`. -/
theorem configValidator_apis (env : Env) (config out : JSValue)
    (apis : List (String × JSValue)) (ho : isObject config = true)
    (hcs : getProp config "apis" = some (.obj apis))
    (h : configValidator env config = some out) :
    ∃ d apis', defaultApiConfig env = some d ∧
      getProp out "apis" = some (.obj apis') ∧
      mapValuesM (validateApi env d) apis = some apis' := by
  obtain ⟨ap, am, r, cs, a, -, -, -, -, h₅, rfl⟩ := configValidator_eq_some env config out ho h
  rw [getProp_of_isObject _ _ ho, Option.some.injEq] at hcs
  rw [getProp_withProps _ _ _ ho, normalizedProps_apis]
  rw [hcs] at h₅
  simp only [apisValue, truthy, if_true, Option.bind_eq_some] at h₅
  obtain ⟨d, hd, hf⟩ := h₅
  obtain ⟨apis', rfl, hm⟩ := forEntries_obj _ _ _ hf
  exact ⟨d, apis', by simpa [defaultApiConfig, Option.bind_eq_some] using hd, rfl, hm⟩

/-- What a successful run of the service loop body on an object returns. -/
theorem validateService_eq_some (env : Env) (d sc sc' : JSValue) (ho : isObject sc = true)
    (h : validateService env d sc = some sc') :
    ∃ serviceName method known expectedResponseStatus isRequired,
      orElseDefault (assocGet (props sc) "serviceName") (getProp d "serviceName")
        = some serviceName ∧
      orElseDefault (assocGet (props sc) "requestMethod") (getProp d "requestMethod")
        = some (.str method) ∧
      getProp env.REQUEST_TYPES (env.toUpperCase method) = some known ∧
      orElseDefault (assocGet (props sc) "expectedResponseStatus")
        (getProp d "expectedResponseStatus") = some expectedResponseStatus ∧
      isRequiredValue d (assocGet (props sc) "isRequired") = some isRequired ∧
      sc' = withProps sc (serviceProps (props sc)
        (.bool (truthy (assocGet (props sc) "healthCheckUrl") && truthy known))
        serviceName (.str (env.toUpperCase method)) expectedResponseStatus isRequired) := by
  rw [validateService_of_isObject env d sc ho] at h
  simp only [Option.bind_eq_some, Option.map_eq_some'] at h
  obtain ⟨sn, h₁, m, h₂, u, h₃, known, h₄, e, h₅, r, h₆, h₇⟩ := h
  cases m <;> simp only [callToUpperCase, Option.some.injEq] at h₃ <;> try exact absurd h₃ (by simp)
  subst h₃
  exact ⟨sn, _, known, e, r, h₁, h₂, h₄, h₅, h₆, h₇.symm⟩

/-! ## Overwritten assignments -/

theorem setMany_cons (ps : List (String × JSValue)) (u : String × JSValue)
    (us : List (String × JSValue)) : setMany ps (u :: us) = setMany (assocSet ps u.1 u.2) us :=
  rfl

/-- An assignment to `k` makes an earlier assignment to `k` unobservable, whatever was
assigned to other keys in between. -/
theorem assocSet_setMany_absorb (us : List (String × JSValue)) (ps : List (String × JSValue))
    (k : String) (x v : JSValue) (hne : ∀ u ∈ us, u.1 ≠ k) :
    assocSet (setMany (assocSet ps k x) us) k v = setMany (assocSet ps k v) us := by
  induction us generalizing ps x with
  | nil => simp [setMany]
  | cons u rest ih =>
    have hu : k ≠ u.1 := fun e => hne u (List.mem_cons_self _ _) e.symm
    have hrest : ∀ w ∈ rest, w.1 ≠ k := fun w hw => hne w (List.mem_cons_of_mem _ hw)
    rw [setMany_cons, setMany_cons]
    have e₁ : assocSet (assocSet ps k x) u.1 u.2
        = assocSet (assocSet (assocSet ps k x) u.1 u.2) k x := by
      rw [assocSet_comm _ k u.1 _ _ (by simp) hu, assocSet_assocSet_same]
    rw [e₁, ih _ _ hrest, assocSet_comm _ k u.1 _ _ (by simp) hu, assocSet_assocSet_same]

theorem setMany_indep (us : List (String × JSValue)) (ps : List (String × JSValue))
    (k : String) (x y v : JSValue) (hne : ∀ u ∈ us, u.1 ≠ k) :
    assocSet (setMany (assocSet ps k x) us) k v = assocSet (setMany (assocSet ps k y) us) k v := by
  rw [assocSet_setMany_absorb us ps k x v hne, assocSet_setMany_absorb us ps k y v hne]

theorem serviceProps_requestMethod_indep (ps : List (String × JSValue))
    (x y iv sn rm e r : JSValue) :
    serviceProps (assocSet ps "requestMethod" x) iv sn rm e r
      = serviceProps (assocSet ps "requestMethod" y) iv sn rm e r := by
  have := setMany_indep [("isValid", iv), ("serviceName", sn)] ps "requestMethod" x y rm
    (by simp)
  simp only [setMany, List.foldl] at this
  simp only [serviceProps, this]

theorem apiProps_requestMethod_indep (ps : List (String × JSValue)) (x y an rm dep : JSValue) :
    apiProps (assocSet ps "requestMethod" x) an rm dep
      = apiProps (assocSet ps "requestMethod" y) an rm dep := by
  have := setMany_indep [("apiName", an)] ps "requestMethod" x y rm (by simp)
  simp only [setMany, List.foldl] at this
  simp only [apiProps, this]

theorem normalizedProps_services_indep (ps : List (String × JSValue))
    (x y ap am r cs a : JSValue) :
    normalizedProps (assocSet ps "consumedServices" x) ap am r cs a
      = normalizedProps (assocSet ps "consumedServices" y) ap am r cs a := by
  have := setMany_indep [("isDefault", .bool false), ("apiPath", ap),
    ("consumedServicesAsyncMode", am), ("response", r)] ps "consumedServices" x y cs (by simp)
  simp only [setMany, List.foldl] at this
  simp only [normalizedProps, this]

theorem normalizedProps_apis_indep (ps : List (String × JSValue))
    (x y ap am r cs a : JSValue) :
    normalizedProps (assocSet ps "apis" x) ap am r cs a
      = normalizedProps (assocSet ps "apis" y) ap am r cs a := by
  have := setMany_indep [("isDefault", .bool false), ("apiPath", ap),
    ("consumedServicesAsyncMode", am), ("response", r), ("consumedServices", cs)] ps "apis"
    x y a (by simp)
  simp only [setMany, List.foldl] at this
  simp only [normalizedProps, this]

theorem mapValuesM_assocSet_congr (f : JSValue → Option JSValue) (ps : List (String × JSValue))
    (k : String) (x y : JSValue) (h : f x = f y) :
    mapValuesM f (assocSet ps k x) = mapValuesM f (assocSet ps k y) := by
  induction ps with
  | nil => simp [assocSet, mapValuesM, h]
  | cons p rest ih =>
    obtain ⟨k₀, v₀⟩ := p
    by_cases h₀ : k₀ = k
    · simp [assocSet, h₀, mapValuesM, h]
    · simp [assocSet, h₀, mapValuesM, ih]

theorem truthy_str (s : String) (h : s ≠ "") : truthy (.str s) = true := by
  simp [truthy, h]

theorem validateService_case (env : Env) (d : JSValue) (entry : List (String × JSValue))
    (s₁ s₂ : String) (hup : env.toUpperCase s₁ = env.toUpperCase s₂)
    (h₁ : s₁ ≠ "") (h₂ : s₂ ≠ "") :
    validateService env d (.obj (assocSet entry "requestMethod" (.str s₁)))
      = validateService env d (.obj (assocSet entry "requestMethod" (.str s₂))) := by
  rw [validateService_of_isObject env d (.obj _) rfl, validateService_of_isObject env d (.obj _) rfl]
  simp only [props, withProps, assocGet_assocSet_same]
  rw [assocGet_assocSet_ne _ _ _ _ (by decide), assocGet_assocSet_ne _ _ _ _ (by decide),
    assocGet_assocSet_ne _ _ _ _ (by decide), assocGet_assocSet_ne _ _ _ _ (by decide),
    assocGet_assocSet_ne _ _ _ _ (by decide), assocGet_assocSet_ne _ _ _ _ (by decide),
    assocGet_assocSet_ne _ _ _ _ (by decide), assocGet_assocSet_ne _ _ _ _ (by decide)]
  simp only [orElseDefault, truthy_str _ h₁, truthy_str _ h₂, if_true, Option.some_bind,
    callToUpperCase, hup]
  simp only [serviceProps_requestMethod_indep entry (.str s₁) (.str s₂)]

theorem validateApi_case (env : Env) (d : JSValue) (entry : List (String × JSValue))
    (s₁ s₂ : String) (hup : env.toUpperCase s₁ = env.toUpperCase s₂)
    (h₁ : s₁ ≠ "") (h₂ : s₂ ≠ "") :
    validateApi env d (.obj (assocSet entry "requestMethod" (.str s₁)))
      = validateApi env d (.obj (assocSet entry "requestMethod" (.str s₂))) := by
  rw [validateApi_of_isObject env d (.obj _) rfl, validateApi_of_isObject env d (.obj _) rfl]
  simp only [props, withProps, assocGet_assocSet_same]
  rw [assocGet_assocSet_ne _ _ _ _ (by decide), assocGet_assocSet_ne _ _ _ _ (by decide),
    assocGet_assocSet_ne _ _ _ _ (by decide), assocGet_assocSet_ne _ _ _ _ (by decide)]
  simp only [orElseDefault, truthy_str _ h₁, truthy_str _ h₂, if_true, Option.some_bind,
    callToUpperCase, hup]
  simp only [apiProps_requestMethod_indep entry (.str s₁) (.str s₂)]

theorem configValidator_services_congr (env : Env) (fields : List (String × JSValue))
    (x y : JSValue) (h : consumedServicesValue env x = consumedServicesValue env y) :
    configValidator env (.obj (assocSet fields "consumedServices" x))
      = configValidator env (.obj (assocSet fields "consumedServices" y)) := by
  rw [configValidator_of_isObject env (.obj _) rfl, configValidator_of_isObject env (.obj _) rfl]
  simp only [props, withProps, assocGet_assocSet_same, h]
  rw [assocGet_assocSet_ne _ _ _ _ (by decide), assocGet_assocSet_ne _ _ _ _ (by decide),
    assocGet_assocSet_ne _ _ _ _ (by decide), assocGet_assocSet_ne _ _ _ _ (by decide),
    assocGet_assocSet_ne _ _ _ _ (by decide), assocGet_assocSet_ne _ _ _ _ (by decide),
    assocGet_assocSet_ne _ _ _ _ (by decide), assocGet_assocSet_ne _ _ _ _ (by decide)]
  simp only [normalizedProps_services_indep fields x y]

theorem configValidator_apis_congr (env : Env) (fields : List (String × JSValue))
    (x y : JSValue) (h : apisValue env x = apisValue env y) :
    configValidator env (.obj (assocSet fields "apis" x))
      = configValidator env (.obj (assocSet fields "apis" y)) := by
  rw [configValidator_of_isObject env (.obj _) rfl, configValidator_of_isObject env (.obj _) rfl]
  simp only [props, withProps, assocGet_assocSet_same, h]
  rw [assocGet_assocSet_ne _ _ _ _ (by decide), assocGet_assocSet_ne _ _ _ _ (by decide),
    assocGet_assocSet_ne _ _ _ _ (by decide), assocGet_assocSet_ne _ _ _ _ (by decide),
    assocGet_assocSet_ne _ _ _ _ (by decide), assocGet_assocSet_ne _ _ _ _ (by decide),
    assocGet_assocSet_ne _ _ _ _ (by decide), assocGet_assocSet_ne _ _ _ _ (by decide)]
  simp only [normalizedProps_apis_indep fields x y]

/-! ## Running the validator a second time -/

theorem orElseDefault_idem (v w : JSValue) (f : Option JSValue)
    (h : orElseDefault v f = some w) : orElseDefault w f = some w := by
  unfold orElseDefault at h ⊢
  by_cases hv : truthy v = true
  · simp only [hv, if_true, Option.some.injEq] at h
    subst h
    simp [hv]
  · simp only [hv, Bool.false_eq_true, if_false] at h
    by_cases hw : truthy w = true <;> simp [hw, h]

theorem isRequiredValue_idem (d v w : JSValue) (h : isRequiredValue d v = some w) :
    isRequiredValue d w = some w := by
  unfold isRequiredValue at h ⊢
  by_cases hv : (!truthy v || decide (typeOf v ≠ "boolean")) = true
  · simp only [hv, if_true] at h
    by_cases hw : (!truthy w || decide (typeOf w ≠ "boolean")) = true <;> simp [hw, h]
  · simp only [hv, Bool.false_eq_true, if_false, Option.some.injEq] at h
    subst h
    simp only [hv, Bool.false_eq_true, if_false]

theorem mapValuesM_idem (f : JSValue → Option JSValue)
    (hf : ∀ v v', f v = some v' → f v' = some v') (ps ps' : List (String × JSValue))
    (h : mapValuesM f ps = some ps') : mapValuesM f ps' = some ps' := by
  induction ps generalizing ps' with
  | nil => simp only [mapValuesM, Option.some.injEq] at h; subst h; rfl
  | cons p rest ih =>
    obtain ⟨k₀, v₀⟩ := p
    simp only [mapValuesM] at h
    cases hv : f v₀ with
    | none => simp [hv] at h
    | some v' =>
      cases hr : mapValuesM f rest with
      | none => simp [hv, hr] at h
      | some rest' =>
        simp only [hv, hr, Option.some.injEq] at h
        subst h
        simp [mapValuesM, hf _ _ hv, ih _ hr]

theorem mapElemsM_idem (f : JSValue → Option JSValue)
    (hf : ∀ v v', f v = some v' → f v' = some v') (es es' : List JSValue)
    (h : mapElemsM f es = some es') : mapElemsM f es' = some es' := by
  induction es generalizing es' with
  | nil => simp only [mapElemsM, Option.some.injEq] at h; subst h; rfl
  | cons v₀ rest ih =>
    simp only [mapElemsM] at h
    cases hv : f v₀ with
    | none => simp [hv] at h
    | some v' =>
      cases hr : mapElemsM f rest with
      | none => simp [hv, hr] at h
      | some rest' =>
        simp only [hv, hr, Option.some.injEq] at h
        subst h
        simp [mapElemsM, hf _ _ hv, ih _ hr]

theorem forEntries_idem (f : JSValue → Option JSValue)
    (hf : ∀ v v', f v = some v' → f v' = some v') (c c' : JSValue)
    (h : forEntries f c = some c') : forEntries f c' = some c' ∧ truthy c' = truthy c := by
  cases c with
  | undefined => simp [forEntries] at h
  | null => simp [forEntries] at h
  | bool b => simp only [forEntries, Option.some.injEq] at h; subst h; exact ⟨rfl, rfl⟩
  | num n => simp only [forEntries, Option.some.injEq] at h; subst h; exact ⟨rfl, rfl⟩
  | str s =>
    simp only [forEntries, Option.map_eq_some'] at h
    obtain ⟨es, hes, rfl⟩ := h
    exact ⟨by simp [forEntries, hes], rfl⟩
  | obj ps =>
    simp only [forEntries, Option.map_eq_some'] at h
    obtain ⟨ps', hps, rfl⟩ := h
    exact ⟨by simp [forEntries, mapValuesM_idem f hf _ _ hps], rfl⟩
  | arr es ps =>
    simp only [forEntries] at h
    cases he : mapElemsM f es with
    | none => simp [he] at h
    | some es' =>
      simp only [he, Option.map_eq_some'] at h
      obtain ⟨ps', hps, rfl⟩ := h
      exact ⟨by simp [forEntries, mapElemsM_idem f hf _ _ he, mapValuesM_idem f hf _ _ hps], rfl⟩

theorem method_idem (env : Env) (hi : ∀ s, env.toUpperCase (env.toUpperCase s) = env.toUpperCase s)
    (hn : ∀ s, env.toUpperCase s = "" → s = "") (v : JSValue) (f : Option JSValue) (m : String)
    (h : orElseDefault v f = some (.str m)) :
    ∃ x, orElseDefault (.str (env.toUpperCase m)) f = some (.str x) ∧
      env.toUpperCase x = env.toUpperCase m := by
  by_cases hu : env.toUpperCase m = ""
  · have hm : m = "" := hn m hu
    subst hm
    have hf : f = some (.str "") := by
      unfold orElseDefault at h
      by_cases hv : truthy v = true
      · simp only [hv, if_true, Option.some.injEq] at h
        subst h
        simp [truthy] at hv
      · simpa [hv] using h
    refine ⟨"", ?_, rfl⟩
    simp [orElseDefault, hu, truthy, hf]
  · exact ⟨env.toUpperCase m, by simp [orElseDefault, truthy, hu], hi m⟩

theorem serviceProps_idem (ps : List (String × JSValue)) (a b c d e : JSValue) :
    serviceProps (serviceProps ps a b c d e) a b c d e = serviceProps ps a b c d e := by
  have h₁ : assocSet (serviceProps ps a b c d e) "isValid" a = serviceProps ps a b c d e :=
    assocSet_of_assocGet _ _ _ (by simp [serviceProps]) (by simp [serviceProps])
  have h₂ : assocSet (serviceProps ps a b c d e) "serviceName" b = serviceProps ps a b c d e :=
    assocSet_of_assocGet _ _ _ (by simp [serviceProps]) (by simp [serviceProps])
  have h₃ : assocSet (serviceProps ps a b c d e) "requestMethod" c = serviceProps ps a b c d e :=
    assocSet_of_assocGet _ _ _ (by simp [serviceProps]) (by simp [serviceProps])
  have h₄ : assocSet (serviceProps ps a b c d e) "expectedResponseStatus" d
      = serviceProps ps a b c d e :=
    assocSet_of_assocGet _ _ _ (by simp [serviceProps]) (by simp [serviceProps])
  have h₅ : assocSet (serviceProps ps a b c d e) "isRequired" e = serviceProps ps a b c d e :=
    assocSet_of_assocGet _ _ _ (by simp [serviceProps]) (by simp [serviceProps])
  have hdef : ∀ P, serviceProps P a b c d e = assocSet (assocSet (assocSet (assocSet
      (assocSet P "isValid" a) "serviceName" b) "requestMethod" c)
      "expectedResponseStatus" d) "isRequired" e := fun _ => rfl
  rw [hdef (serviceProps ps a b c d e), h₁, h₂, h₃, h₄, h₅]

theorem apiProps_idem (ps : List (String × JSValue)) (a b c : JSValue) :
    apiProps (apiProps ps a b c) a b c = apiProps ps a b c := by
  have h₁ : assocSet (apiProps ps a b c) "apiName" a = apiProps ps a b c :=
    assocSet_of_assocGet _ _ _ (by simp [apiProps]) (by simp [apiProps])
  have h₂ : assocSet (apiProps ps a b c) "requestMethod" b = apiProps ps a b c :=
    assocSet_of_assocGet _ _ _ (by simp [apiProps]) (by simp [apiProps])
  have h₃ : assocSet (apiProps ps a b c) "dependsOn" c = apiProps ps a b c :=
    assocSet_of_assocGet _ _ _ (by simp [apiProps]) (by simp [apiProps])
  have hdef : ∀ P, apiProps P a b c = assocSet (assocSet (assocSet P "apiName" a)
      "requestMethod" b) "dependsOn" c := fun _ => rfl
  rw [hdef (apiProps ps a b c), h₁, h₂, h₃]

theorem normalizedProps_idem (ps : List (String × JSValue)) (a b c d e : JSValue) :
    normalizedProps (normalizedProps ps a b c d e) a b c d e = normalizedProps ps a b c d e := by
  have h₀ : assocSet (normalizedProps ps a b c d e) "isDefault" (.bool false)
      = normalizedProps ps a b c d e :=
    assocSet_of_assocGet _ _ _ (by simp [normalizedProps]) (by simp [normalizedProps])
  have h₁ : assocSet (normalizedProps ps a b c d e) "apiPath" a = normalizedProps ps a b c d e :=
    assocSet_of_assocGet _ _ _ (by simp [normalizedProps]) (by simp [normalizedProps])
  have h₂ : assocSet (normalizedProps ps a b c d e) "consumedServicesAsyncMode" b
      = normalizedProps ps a b c d e :=
    assocSet_of_assocGet _ _ _ (by simp [normalizedProps]) (by simp [normalizedProps])
  have h₃ : assocSet (normalizedProps ps a b c d e) "response" c = normalizedProps ps a b c d e :=
    assocSet_of_assocGet _ _ _ (by simp [normalizedProps]) (by simp [normalizedProps])
  have h₄ : assocSet (normalizedProps ps a b c d e) "consumedServices" d
      = normalizedProps ps a b c d e :=
    assocSet_of_assocGet _ _ _ (by simp [normalizedProps]) (by simp [normalizedProps])
  have h₅ : assocSet (normalizedProps ps a b c d e) "apis" e = normalizedProps ps a b c d e :=
    assocSet_of_assocGet _ _ _ (by simp [normalizedProps]) (by simp [normalizedProps])
  have hdef : ∀ P, normalizedProps P a b c d e = assocSet (assocSet (assocSet (assocSet
      (assocSet (assocSet P "isDefault" (.bool false)) "apiPath" a)
      "consumedServicesAsyncMode" b) "response" c) "consumedServices" d) "apis" e :=
    fun _ => rfl
  rw [hdef (normalizedProps ps a b c d e), h₀, h₁, h₂, h₃, h₄, h₅]

theorem validateService_idem (env : Env)
    (hi : ∀ s, env.toUpperCase (env.toUpperCase s) = env.toUpperCase s)
    (hn : ∀ s, env.toUpperCase s = "" → s = "") (d sc sc' : JSValue)
    (h : validateService env d sc = some sc') : validateService env d sc' = some sc' := by
  by_cases ht : truthy sc = true
  · have hobj := validateService_isObject env d sc sc' ht h
    obtain ⟨sn, m, known, e, r, h₁, h₂, h₃, h₄, h₅, rfl⟩ :=
      validateService_eq_some env d sc sc' hobj h
    obtain ⟨x, hx, hux⟩ := method_idem env hi hn _ _ _ h₂
    rw [validateService_of_isObject env d _ (by simp [hobj])]
    simp only [props_withProps _ _ hobj, withProps_withProps]
    have g₁ : ∀ a b c d e, assocGet (serviceProps (props sc) a b c d e) "serviceName" = b := by
      intros; simp [serviceProps]
    have g₂ : ∀ a b c d e, assocGet (serviceProps (props sc) a b c d e) "requestMethod" = c := by
      intros; simp [serviceProps]
    have g₃ : ∀ a b c d e,
        assocGet (serviceProps (props sc) a b c d e) "expectedResponseStatus" = d := by
      intros; simp [serviceProps]
    have g₄ : ∀ a b c d e, assocGet (serviceProps (props sc) a b c d e) "isRequired" = e := by
      intros; simp [serviceProps]
    have g₅ : ∀ a b c d e, assocGet (serviceProps (props sc) a b c d e) "healthCheckUrl"
        = assocGet (props sc) "healthCheckUrl" := by
      intros; simp [serviceProps]
    simp only [g₁, g₂, g₃, g₄, g₅, orElseDefault_idem _ _ _ h₁, orElseDefault_idem _ _ _ h₄,
      isRequiredValue_idem _ _ _ h₅, hx, Option.some_bind, callToUpperCase, hux, h₃,
      Option.map_some', serviceProps_idem]
  · simp only [validateService, ht, Bool.false_eq_true, if_false, Option.some.injEq] at h
    subst h
    simp [validateService, ht]

/-- What a successful run of the apis loop body on an object returns. -/
theorem validateApi_eq_some (env : Env) (d ac ac' : JSValue) (ho : isObject ac = true)
    (h : validateApi env d ac = some ac') :
    ∃ apiName method known requestMethod,
      orElseDefault (assocGet (props ac) "apiName") (getProp d "apiName") = some apiName ∧
      orElseDefault (assocGet (props ac) "requestMethod") (getProp d "requestMethod")
        = some (.str method) ∧
      getProp env.REQUEST_TYPES (env.toUpperCase method) = some known ∧
      (if truthy known then some (.str (env.toUpperCase method))
        else getProp d "requestMethod") = some requestMethod ∧
      ac' = withProps ac (apiProps (props ac) apiName requestMethod
        (if isArray (assocGet (props ac) "dependsOn") then assocGet (props ac) "dependsOn"
          else .arr [] [])) := by
  rw [validateApi_of_isObject env d ac ho] at h
  simp only [Option.bind_eq_some, Option.map_eq_some'] at h
  obtain ⟨an, h₁, m, h₂, u, h₃, known, h₄, rm, h₅, h₆⟩ := h
  cases m <;> simp only [callToUpperCase, Option.some.injEq] at h₃ <;> try exact absurd h₃ (by simp)
  subst h₃
  exact ⟨an, _, known, rm, h₁, h₂, h₄, h₅, h₆.symm⟩

theorem getProp_total (v a : JSValue) (k k' : String) (h : getProp v k = some a) :
    ∃ b, getProp v k' = some b := by
  cases v <;> simp_all [getProp]

theorem validateApi_idem (env : Env)
    (hi : ∀ s, env.toUpperCase (env.toUpperCase s) = env.toUpperCase s)
    (hn : ∀ s, env.toUpperCase s = "" → s = "") (d : JSValue) (dm : String)
    (hd : getProp d "requestMethod" = some (.str dm)) (hdm : env.toUpperCase dm = dm)
    (ac ac' : JSValue) (h : validateApi env d ac = some ac') :
    validateApi env d ac' = some ac' := by
  have hobj := validateApi_isObject env d ac ac' h
  obtain ⟨an, m, known, rm, h₁, h₂, h₃, h₄, rfl⟩ := validateApi_eq_some env d ac ac' hobj h
  rw [validateApi_of_isObject env d _ (by simp [hobj])]
  simp only [props_withProps _ _ hobj, withProps_withProps]
  have g₁ : ∀ a b c, assocGet (apiProps (props ac) a b c) "apiName" = a := by
    intros; simp [apiProps]
  have g₂ : ∀ a b c, assocGet (apiProps (props ac) a b c) "requestMethod" = b := by
    intros; simp [apiProps]
  have g₃ : ∀ a b c, assocGet (apiProps (props ac) a b c) "dependsOn" = c := by
    intros; simp [apiProps]
  have hdep : ∀ v : JSValue, isArray (if isArray v = true then v else .arr [] []) = true := by
    intro v
    by_cases hv : isArray v = true
    · simp only [hv, if_true]
    · simp only [hv, Bool.false_eq_true, if_false]; rfl
  simp only [g₁, g₂, g₃, orElseDefault_idem _ _ _ h₁, Option.some_bind, hdep, if_true]
  by_cases hk : truthy known = true
  · simp only [hk, if_true, Option.some.injEq] at h₄
    subst h₄
    obtain ⟨x, hx, hux⟩ := method_idem env hi hn _ _ _ h₂
    simp only [hx, Option.some_bind, callToUpperCase, hux, h₃, hk, if_true, Option.map_some',
      apiProps_idem]
  · simp only [hk, Bool.false_eq_true, if_false, hd, Option.some.injEq] at h₄
    subst h₄
    have ho : orElseDefault (.str dm) (getProp d "requestMethod") = some (.str dm) := by
      unfold orElseDefault
      by_cases hv : truthy (.str dm) = true <;> simp [hv, hd]
    obtain ⟨known', hk'⟩ := getProp_total _ _ _ dm h₃
    simp only [ho, Option.some_bind, callToUpperCase, hdm, hk']
    by_cases hk'' : truthy known' = true
    · simp only [hk'', if_true, Option.map_some', apiProps_idem]
    · simp only [hk'', Bool.false_eq_true, if_false, hd, Option.map_some', apiProps_idem]

theorem responseValue_idem (env : Env) (hw : WellFormedEnv env) (r₀ r : JSValue)
    (h : responseValue env r₀ = some r) : responseValue env r = some r := by
  by_cases ht : truthy r₀ = true
  · by_cases hobj : isObject r₀ = true
    · simp only [responseValue, ht, if_true, getProp_of_isObject _ _ hobj, Option.some_bind] at h
      by_cases hb : typeOf (assocGet (props r₀) "statusCodes") = "boolean"
      · simp only [hb, ne_eq, not_true_eq_false, if_false, Option.some.injEq] at h
        subst h
        simp [responseValue, ht, getProp_of_isObject _ _ hobj, hb]
      · simp only [hb, ne_eq, not_false_eq_true, if_true] at h
        cases hD : (getProp env.defaultConfig "response").bind
            (fun r => getProp r "statusCodes") with
        | none => rw [hD] at h; exact absurd h (by simp)
        | some d =>
          rw [hD, Option.some_bind, setProp_of_isObject _ _ _ hobj, Option.some.injEq] at h
          subst h
          simp only [responseValue, truthy_of_isObject _ (show isObject (withProps r₀ _) = true by
            simp [hobj]), if_true, getProp_withProps _ _ _ hobj, assocGet_assocSet_same,
            Option.some_bind, hD]
          by_cases hb' : typeOf d = "boolean"
          · simp [hb']
          · simp only [hb', ne_eq, not_false_eq_true, if_true, Option.some_bind]
            rw [setProp_of_isObject _ _ _ (by simp [hobj])]
            simp [props_withProps _ _ hobj]
    · have hn : ∀ k, getProp r₀ k ≠ none := by
        intro k; cases r₀ <;> simp_all [getProp, truthy]
      have hg := getProp_of_primitive r₀ "statusCodes" (hn _) (by simpa using hobj)
      have hs := fun x => setProp_of_primitive r₀ "statusCodes" x (hn _) (by simpa using hobj)
      have h' := h
      simp only [responseValue, ht, if_true, hg, Option.some_bind, typeOf, ne_eq,
        Option.bind_eq_some, hs] at h
      have hne : ¬ ("undefined" = "boolean") := by decide
      simp only [hne, not_false_eq_true, if_true, Option.bind_eq_some, Option.some.injEq] at h
      obtain ⟨d, -, rfl⟩ := h
      exact h'
  · obtain ⟨R, hR, hRo, hRb⟩ := hw.response
    simp only [responseValue, ht, Bool.false_eq_true, if_false, hR, Option.some.injEq] at h
    subst h
    simp [responseValue, truthy_of_isObject _ hRo, getProp_of_isObject _ _ hRo, hRb]

theorem consumedServicesValue_idem (env : Env) (hw : WellFormedEnv env) (c₀ c : JSValue)
    (h : consumedServicesValue env c₀ = some c) : consumedServicesValue env c = some c := by
  by_cases ht : truthy c₀ = true
  · simp only [consumedServicesValue, ht, if_true, Option.bind_eq_some] at h
    obtain ⟨d, hd, hf⟩ := h
    obtain ⟨hf', ht'⟩ := forEntries_idem _
      (validateService_idem env hw.upper_idem hw.upper_nonempty d) _ _ hf
    simp only [consumedServicesValue, ht', ht, if_true, Option.bind_eq_some]
    exact ⟨d, hd, hf'⟩
  · simp only [consumedServicesValue, ht, Bool.false_eq_true, if_false, Option.some.injEq] at h
    subst h
    obtain ⟨d, -, hd, -, -⟩ := hw.serviceTemplate
    simp only [defaultServiceConfig] at hd
    simp [consumedServicesValue, truthy, hd, forEntries, mapValuesM]

theorem apisValue_idem (env : Env) (hw : WellFormedEnv env) (a₀ a : JSValue)
    (h : apisValue env a₀ = some a) : apisValue env a = some a := by
  obtain ⟨d, dm, hd, hdm, hup⟩ := hw.apiTemplate
  simp only [defaultApiConfig] at hd
  by_cases ht : truthy a₀ = true
  · simp only [apisValue, ht, if_true, hd, Option.some_bind] at h
    obtain ⟨hf', ht'⟩ := forEntries_idem _
      (validateApi_idem env hw.upper_idem hw.upper_nonempty d dm hdm hup) _ _ h
    simp only [apisValue, ht', ht, if_true, hd, Option.some_bind]
    exact hf'
  · simp only [apisValue, ht, Bool.false_eq_true, if_false, Option.some.injEq] at h
    subst h
    simp [apisValue, truthy, hd, forEntries, mapValuesM]

theorem toUpper_idem (c : Char) : c.toUpper.toUpper = c.toUpper := by
  by_cases h : c.toNat ≥ 97 ∧ c.toNat ≤ 122
  · have hc : c = Char.ofNat c.toNat := (Char.ofNat_toNat c).symm
    obtain ⟨h1, h2⟩ := h
    generalize c.toNat = n at *
    subst hc
    interval_cases n <;> rfl
  · have : c.toUpper = c := by
      unfold Char.toUpper
      simp only [h, if_false]
    rw [this, this]

theorem asciiToUpperCase_idem (s : String) :
    asciiToUpperCase (asciiToUpperCase s) = asciiToUpperCase s := by
  have : ∀ l : List Char, (l.map Char.toUpper).map Char.toUpper = l.map Char.toUpper := by
    intro l
    induction l with
    | nil => rfl
    | cons c t ih => simp [toUpper_idem]
  simp only [asciiToUpperCase, this]

theorem asciiToUpperCase_nonempty (s : String) (h : asciiToUpperCase s = "") : s = "" := by
  have h' : (asciiToUpperCase s).data = [] := by rw [h]
  simp only [asciiToUpperCase, List.map_eq_nil_iff] at h'
  exact String.ext h'

/-- The example environment has the shape the spec requires. -/
theorem exampleEnv_wellFormed : WellFormedEnv exampleEnv where
  upper_idem := asciiToUpperCase_idem
  upper_nonempty := asciiToUpperCase_nonempty
  response := ⟨_, rfl, rfl, rfl⟩
  defaultConfig_object := rfl
  requestTypes_object := rfl
  serviceTemplate := ⟨_, "GET", rfl, rfl, by decide⟩
  apiTemplate := ⟨_, "GET", rfl, rfl, by decide⟩

/-! ## Runs that return -/

theorem getProp_isSome_of_isObject (v : JSValue) (k : String) (h : isObject v = true) :
    ∃ b, getProp v k = some b :=
  ⟨_, getProp_of_isObject v k h⟩

theorem orElseDefault_isSome (v : JSValue) (f : Option JSValue) (h : ∃ b, f = some b) :
    ∃ b, orElseDefault v f = some b := by
  obtain ⟨b, rfl⟩ := h
  unfold orElseDefault
  by_cases hv : truthy v = true
  · exact ⟨v, by simp [hv]⟩
  · exact ⟨b, by simp [hv]⟩

theorem mapValuesM_isSome (f : JSValue → Option JSValue) (ps : List (String × JSValue))
    (h : ∀ p ∈ ps, ∃ v, f p.2 = some v) : ∃ ps', mapValuesM f ps = some ps' := by
  induction ps with
  | nil => exact ⟨[], rfl⟩
  | cons p rest ih =>
    obtain ⟨k₀, v₀⟩ := p
    obtain ⟨v', hv⟩ := h (k₀, v₀) (List.mem_cons_self _ _)
    obtain ⟨rest', hr⟩ := ih fun q hq => h q (List.mem_cons_of_mem _ hq)
    exact ⟨(k₀, v') :: rest', by simp only [mapValuesM] at hv ⊢; simp [hv, hr]⟩

theorem method_isSome (d entry : JSValue) (m : String)
    (hd : getProp d "requestMethod" = some (.str m)) (hu : methodUsable entry = true) :
    ∃ s, orElseDefault (assocGet (props entry) "requestMethod") (getProp d "requestMethod")
      = some (.str s) := by
  unfold methodUsable at hu
  unfold orElseDefault
  cases hv : assocGet (props entry) "requestMethod" with
  | str s =>
    by_cases hs : truthy (.str s) = true
    · exact ⟨s, by simp [hs]⟩
    · exact ⟨m, by simp [hs, hd]⟩
  | undefined => exact ⟨m, by simp [truthy, hd]⟩
  | null => exact ⟨m, by simp [truthy, hd]⟩
  | bool b => rw [hv] at hu; simp at hu; exact ⟨m, by simp [hu, hd]⟩
  | num n => rw [hv] at hu; simp at hu; exact ⟨m, by simp [hu, hd]⟩
  | obj ps => rw [hv] at hu; simp [truthy] at hu
  | arr es ps => rw [hv] at hu; simp [truthy] at hu

theorem validateService_returns (env : Env) (hw : WellFormedEnv env) (d : JSValue) (m : String)
    (hd : getProp d "requestMethod" = some (.str m)) (sc : JSValue)
    (h : truthy sc = false ∨ (isObject sc = true ∧ methodUsable sc = true)) :
    ∃ sc', validateService env d sc = some sc' := by
  rcases h with hf | ⟨ho, hu⟩
  · exact ⟨sc, by simp [validateService, hf]⟩
  · rw [validateService_of_isObject env d sc ho]
    obtain ⟨sn, hsn⟩ := orElseDefault_isSome (assocGet (props sc) "serviceName") _
      (getProp_total d _ _ "serviceName" hd)
    obtain ⟨s, hs⟩ := method_isSome d sc m hd hu
    obtain ⟨known, hk⟩ := getProp_isSome_of_isObject env.REQUEST_TYPES (env.toUpperCase s)
      hw.requestTypes_object
    obtain ⟨e, he⟩ := orElseDefault_isSome (assocGet (props sc) "expectedResponseStatus") _
      (getProp_total d _ _ "expectedResponseStatus" hd)
    obtain ⟨r, hr⟩ : ∃ r, isRequiredValue d (assocGet (props sc) "isRequired") = some r := by
      unfold isRequiredValue
      obtain ⟨b, hb⟩ := getProp_total d _ _ "isRequired" hd
      split
      · exact ⟨b, hb⟩
      · exact ⟨_, rfl⟩
    simp only [hsn, hs, hk, he, hr, Option.some_bind, callToUpperCase, Option.map_some']
    exact ⟨_, rfl⟩

theorem validateApi_returns (env : Env) (hw : WellFormedEnv env) (d : JSValue) (m : String)
    (hd : getProp d "requestMethod" = some (.str m)) (ac : JSValue)
    (ho : isObject ac = true) (hu : methodUsable ac = true) :
    ∃ ac', validateApi env d ac = some ac' := by
  rw [validateApi_of_isObject env d ac ho]
  obtain ⟨an, han⟩ := orElseDefault_isSome (assocGet (props ac) "apiName") _
    (getProp_total d _ _ "apiName" hd)
  obtain ⟨s, hs⟩ := method_isSome d ac m hd hu
  obtain ⟨known, hk⟩ := getProp_isSome_of_isObject env.REQUEST_TYPES (env.toUpperCase s)
    hw.requestTypes_object
  simp only [han, hs, hk, Option.some_bind, callToUpperCase]
  by_cases hkn : truthy known = true
  · simp only [hkn, if_true, Option.map_some']
    exact ⟨_, rfl⟩
  · simp only [hkn, hd, Bool.false_eq_true, if_false, Option.map_some']
    exact ⟨_, rfl⟩

theorem consumedServicesValue_returns (env : Env) (hw : WellFormedEnv env) (cs : JSValue)
    (h : wellTypedEntries true cs = true) : ∃ v, consumedServicesValue env cs = some v := by
  obtain ⟨d, m, hd, hm, -⟩ := hw.serviceTemplate
  simp only [defaultServiceConfig] at hd
  by_cases ht : truthy cs = true
  · cases cs with
    | obj ps =>
      simp only [wellTypedEntries, List.all_eq_true, Bool.or_eq_true, Bool.and_eq_true,
        Bool.not_eq_true', true_and] at h
      obtain ⟨ps', hps⟩ := mapValuesM_isSome (validateService env d) ps
        fun p hp => validateService_returns env hw d m hm p.2 (h p hp)
      exact ⟨.obj ps', by simp [consumedServicesValue, truthy, hd, forEntries, hps]⟩
    | _ => simp_all [wellTypedEntries]
  · exact ⟨.obj [], by simp [consumedServicesValue, ht]⟩

theorem apisValue_returns (env : Env) (hw : WellFormedEnv env) (a : JSValue)
    (h : wellTypedEntries false a = true) : ∃ v, apisValue env a = some v := by
  obtain ⟨d, m, hd, hm, -⟩ := hw.apiTemplate
  simp only [defaultApiConfig] at hd
  by_cases ht : truthy a = true
  · cases a with
    | obj ps =>
      simp only [wellTypedEntries, List.all_eq_true, Bool.or_eq_true, Bool.and_eq_true,
        Bool.false_and, Bool.false_eq_true, false_or] at h
      obtain ⟨ps', hps⟩ := mapValuesM_isSome (validateApi env d) ps
        fun p hp => validateApi_returns env hw d m hm p.2 (h p hp).1 (h p hp).2
      exact ⟨.obj ps', by simp [apisValue, truthy, hd, forEntries, hps]⟩
    | _ => simp_all [wellTypedEntries]
  · exact ⟨.obj [], by simp [apisValue, ht]⟩

theorem responseValue_returns (env : Env) (hw : WellFormedEnv env) (r : JSValue) :
    ∃ v, responseValue env r = some v := by
  obtain ⟨R, hR, hRo, -⟩ := hw.response
  by_cases ht : truthy r = true
  · have hn : ∀ k, ∃ b, getProp r k = some b := by
      intro k; cases r <;> simp_all [getProp, truthy]
    have hs : ∀ k x, ∃ b, setProp r k x = some b := by
      intro k x; cases r <;> simp_all [setProp, truthy]
    obtain ⟨s, hsc⟩ := hn "statusCodes"
    by_cases hb : typeOf s = "boolean"
    · exact ⟨r, by simp [responseValue, ht, hsc, hb]⟩
    · obtain ⟨b, hb'⟩ := hs "statusCodes" (assocGet (props R) "statusCodes")
      exact ⟨b, by simp [responseValue, ht, hsc, hb, hR, getProp_of_isObject _ _ hRo, hb']⟩
  · exact ⟨R, by simp [responseValue, ht, hR]⟩

/-- On a well-typed configuration, with collaborators as the spec requires them, the
validator returns. -/
theorem configValidator_returns (env : Env) (hw : WellFormedEnv env) (config : JSValue)
    (h : wellTypedConfig config = true) : ∃ out, configValidator env config = some out := by
  simp only [wellTypedConfig, Bool.and_eq_true] at h
  obtain ⟨⟨ho, hcs⟩, hapis⟩ := h
  rw [configValidator_of_isObject env config ho]
  obtain ⟨ap, hap⟩ := orElseDefault_isSome (assocGet (props config) "apiPath") _
    (getProp_isSome_of_isObject env.defaultConfig "apiPath" hw.defaultConfig_object)
  obtain ⟨am, ham⟩ := orElseDefault_isSome (assocGet (props config) "consumedServicesAsyncMode")
    _ (getProp_isSome_of_isObject env.defaultConfig "consumedServicesAsyncMode"
      hw.defaultConfig_object)
  obtain ⟨r, hr⟩ := responseValue_returns env hw (assocGet (props config) "response")
  obtain ⟨cs, hcs'⟩ := consumedServicesValue_returns env hw _ hcs
  obtain ⟨a, ha⟩ := apisValue_returns env hw _ hapis
  simp only [hap, ham, hr, hcs', ha, Option.some_bind, Option.map_some']
  exact ⟨_, rfl⟩

/-! ## Single entries of a validated configuration -/

theorem configValidator_service_entry (env : Env) (config out : JSValue)
    (svcs : List (String × JSValue)) (id : String) (ho : isObject config = true)
    (hcs : getProp config "consumedServices" = some (.obj svcs))
    (ht : truthy (assocGet svcs id) = true) (h : configValidator env config = some out) :
    ∃ d svcs', defaultServiceConfig env = some d ∧
      getProp out "consumedServices" = some (.obj svcs') ∧
      isObject (assocGet svcs id) = true ∧
      validateService env d (assocGet svcs id) = some (assocGet svcs' id) := by
  obtain ⟨d, svcs', hd, hout, hm⟩ := configValidator_services env config out svcs ho hcs h
  have he := mapValuesM_assocGet _ _ _ hm id (hasKey_of_truthy svcs id ht)
  exact ⟨d, svcs', hd, hout, validateService_isObject env d _ _ ht he, he⟩

theorem configValidator_api_entry (env : Env) (config out : JSValue)
    (apis : List (String × JSValue)) (id : String) (ho : isObject config = true)
    (hapis : getProp config "apis" = some (.obj apis))
    (hid : hasKey apis id = true) (h : configValidator env config = some out) :
    ∃ d apis', defaultApiConfig env = some d ∧
      getProp out "apis" = some (.obj apis') ∧
      isObject (assocGet apis id) = true ∧
      validateApi env d (assocGet apis id) = some (assocGet apis' id) := by
  obtain ⟨d, apis', hd, hout, hm⟩ := configValidator_apis env config out apis ho hapis h
  have he := mapValuesM_assocGet _ _ _ hm id hid
  exact ⟨d, apis', hd, hout, validateApi_isObject env d _ _ he, he⟩

theorem orElseDefault_of_truthy (v : JSValue) (f : Option JSValue) (h : truthy v = true) :
    orElseDefault v f = some v := by
  simp [orElseDefault, h]

theorem orElseDefault_of_falsy (v : JSValue) (f : Option JSValue) (h : truthy v = false) :
    orElseDefault v f = f := by
  simp [orElseDefault, h]

theorem mapValuesM_falsy (f : JSValue → Option JSValue)
    (hf : ∀ v, truthy v = false → f v = some v) (ps ps' : List (String × JSValue))
    (h : mapValuesM f ps = some ps') (k : String) (hk : hasKey ps k = true)
    (hv : truthy (assocGet ps k) = false) : assocGet ps' k = assocGet ps k := by
  have he := mapValuesM_assocGet f ps ps' h k hk
  rw [hf _ hv, Option.some.injEq] at he
  exact he.symm

theorem validateService_of_falsy (env : Env) (d sc : JSValue) (h : truthy sc = false) :
    validateService env d sc = some sc := by
  simp [validateService, h]

theorem hasKey_iff_mem_keys (ps : List (String × JSValue)) (k : String) :
    hasKey ps k = true ↔ k ∈ ps.map Prod.fst := by
  induction ps with
  | nil => simp [hasKey]
  | cons p rest ih =>
    obtain ⟨k₀, v₀⟩ := p
    simp only [hasKey, Bool.or_eq_true, decide_eq_true_eq, ih, List.map_cons, List.mem_cons]
    constructor
    · rintro (h | h)
      · exact Or.inl h.symm
      · exact Or.inr h
    · rintro (h | h)
      · exact Or.inl h.symm
      · exact Or.inr h

theorem hasKey_of_keys_eq (ps ps' : List (String × JSValue)) (k : String)
    (h : ps'.map Prod.fst = ps.map Prod.fst) : hasKey ps' k = hasKey ps k := by
  have h₁ := hasKey_iff_mem_keys ps k
  have h₂ := hasKey_iff_mem_keys ps' k
  rw [h] at h₂
  cases hp : hasKey ps k <;> cases hp' : hasKey ps' k <;> simp_all

/-! ## Claims -/

/-- C1: on a falsy input the validator returns the default configuration itself; every
result it returns for an object has `isDefault` equal to `false`, whatever `isDefault` the
input carried; and on a well-typed configuration it does return. -/
theorem configValidator_isDefault (env : Env) (config : JSValue) :
    (truthy config = false → configValidator env config = some env.defaultConfig) ∧
    (isObject config = true → ∀ out, configValidator env config = some out →
      getProp out "isDefault" = some (.bool false)) ∧
    (WellFormedEnv env → wellTypedConfig config = true →
      ∃ out, configValidator env config = some out) := by
  refine ⟨fun hf => by simp [configValidator, hf], fun ho out h => ?_,
    fun hw ht => configValidator_returns env hw config ht⟩
  obtain ⟨ap, am, r, cs, a, -, -, -, -, -, rfl⟩ := configValidator_eq_some env config out ho h
  rw [getProp_withProps _ _ _ ho, normalizedProps_isDefault]

/-- Witness for C1: the absent input gives the default configuration, whose `isDefault` is
`true`; an input carrying `isDefault: true` is returned with `isDefault: false`; the
validator returns on the test configuration. -/
theorem configValidator_isDefault_witness :
    (configValidator exampleEnv .undefined = some exampleEnv.defaultConfig ∧
      getProp exampleEnv.defaultConfig "isDefault" = some (.bool true)) ∧
    getProp (.obj [("isDefault", .bool false), ("apiPath", .str "/status"),
        ("consumedServicesAsyncMode", .bool true), ("response", .obj [("statusCodes", .bool true)]),
        ("consumedServices", .obj []), ("apis", .obj [])]) "isDefault" = some (.bool false) ∧
    ∃ out, configValidator exampleEnv customConfig = some out :=
  ⟨⟨(configValidator_isDefault exampleEnv .undefined).1 rfl, rfl⟩,
    (configValidator_isDefault exampleEnv (.obj [("isDefault", .bool true)])).2.1 rfl _ rfl,
    (configValidator_isDefault exampleEnv customConfig).2.2 exampleEnv_wellFormed rfl⟩

/-- C2: for every truthy entry of the `consumedServices` mapping, the `isValid` of the output
entry is `true` exactly when `healthCheckUrl` is truthy and the request method, defaulted
from the template when falsy and then uppercased, is a key of `REQUEST_TYPES` with a truthy
value; an `isValid` supplied by the caller changes nothing. -/
theorem service_isValid (env : Env) (config out sc : JSValue) (svcs : List (String × JSValue))
    (id : String) (ho : isObject config = true)
    (hcs : getProp config "consumedServices" = some (.obj svcs))
    (hsc : assocGet svcs id = sc) (ht : truthy sc = true)
    (h : configValidator env config = some out) :
    ∃ d svcs' method known,
      defaultServiceConfig env = some d ∧
      getProp out "consumedServices" = some (.obj svcs') ∧
      orElseDefault (assocGet (props sc) "requestMethod") (getProp d "requestMethod")
        = some (.str method) ∧
      getProp env.REQUEST_TYPES (env.toUpperCase method) = some known ∧
      getProp (assocGet svcs' id) "isValid"
        = some (.bool (truthy (assocGet (props sc) "healthCheckUrl") && truthy known)) ∧
      ∀ v, validateService env d (withProps sc (assocSet (props sc) "isValid" v))
        = validateService env d sc := by
  obtain ⟨d, svcs', hd, hout, hm⟩ := configValidator_services env config out svcs ho hcs h
  have hk : hasKey svcs id = true := hasKey_of_truthy svcs id (by rw [hsc]; exact ht)
  have he := mapValuesM_assocGet _ _ _ hm id hk
  rw [hsc] at he
  have hobj : isObject sc = true := validateService_isObject env d sc _ ht he
  obtain ⟨sn, m, known, e, r, -, h₂, h₃, -, -, h₆⟩ := validateService_eq_some env d sc _ hobj he
  refine ⟨d, svcs', m, known, hd, hout, h₂, h₃, ?_, ?_⟩
  · rw [h₆, getProp_withProps _ _ _ hobj]
    simp [serviceProps]
  · intro v
    rw [validateService_of_isObject env d _ (by simp [hobj]),
      validateService_of_isObject env d sc hobj]
    simp only [props_withProps _ _ hobj, withProps_withProps, serviceProps,
      assocSet_assocSet_same]
    rw [assocGet_assocSet_ne _ _ _ _ (by decide), assocGet_assocSet_ne _ _ _ _ (by decide),
      assocGet_assocSet_ne _ _ _ _ (by decide), assocGet_assocSet_ne _ _ _ _ (by decide),
      assocGet_assocSet_ne _ _ _ _ (by decide)]

/-- Witness for C2: the `mockId` service of the test configuration, which has a
`healthCheckUrl` and the method `GET`. -/
theorem service_isValid_witness :
    ∃ d svcs' method known,
      defaultServiceConfig exampleEnv = some d ∧
      getProp (.obj [("isDefault", .bool false), ("apiPath", .str "/test-status"),
          ("mode", .str "ON_REQUEST"), ("consumedServicesAsyncMode", .bool true),
          ("consumedServices", .obj [("mockId", .obj [("serviceName", .str "mock service"),
            ("healthCheckUrl", .str "/"), ("requestMethod", .str "GET"),
            ("expectedResponseStatus", .str "200"), ("isRequired", .bool true),
            ("isValid", .bool true)])]),
          ("apis", .obj []), ("response", .obj [("statusCodes", .bool true)])])
        "consumedServices" = some (.obj svcs') ∧
      orElseDefault (assocGet (props (.obj [("serviceName", .str "mock service"),
          ("healthCheckUrl", .str "/"), ("requestMethod", .str "GET"),
          ("expectedResponseStatus", .str "200"), ("isRequired", .bool true)])) "requestMethod")
        (getProp d "requestMethod") = some (.str method) ∧
      getProp exampleEnv.REQUEST_TYPES (exampleEnv.toUpperCase method) = some known ∧
      getProp (assocGet svcs' "mockId") "isValid"
        = some (.bool (truthy (assocGet (props (.obj [("serviceName", .str "mock service"),
            ("healthCheckUrl", .str "/"), ("requestMethod", .str "GET"),
            ("expectedResponseStatus", .str "200"), ("isRequired", .bool true)]))
            "healthCheckUrl") && truthy known)) ∧
      ∀ v, validateService exampleEnv d (withProps (.obj [("serviceName", .str "mock service"),
            ("healthCheckUrl", .str "/"), ("requestMethod", .str "GET"),
            ("expectedResponseStatus", .str "200"), ("isRequired", .bool true)])
          (assocSet (props (.obj [("serviceName", .str "mock service"),
            ("healthCheckUrl", .str "/"), ("requestMethod", .str "GET"),
            ("expectedResponseStatus", .str "200"), ("isRequired", .bool true)])) "isValid" v))
        = validateService exampleEnv d (.obj [("serviceName", .str "mock service"),
            ("healthCheckUrl", .str "/"), ("requestMethod", .str "GET"),
            ("expectedResponseStatus", .str "200"), ("isRequired", .bool true)]) :=
  service_isValid exampleEnv customConfig _ _ _ "mockId" rfl rfl rfl rfl rfl

/-- C3: the validator leaves every element of `dependsOn` as it is.  On the test input
`apis = {mockId: {dependsOn: [{serviceId: "mockId"}]}}`, where `mockId` is a key of
`consumedServices`, the output element is still `{serviceId: "mockId"}` and its `isValid`
reads `undefined`, not `true`. -/
theorem dependsOn_element_untouched :
    ((((configValidator exampleEnv
        (withProps customConfig (assocSet (props customConfig) "apis"
          (.obj [("mockId", .obj [("dependsOn",
            .arr [.obj [("serviceId", .str "mockId")]] [])])])))).bind
        fun out => getProp out "apis").bind
        fun apis => getProp apis "mockId").bind
        fun api => getProp api "dependsOn")
      = some (.arr [.obj [("serviceId", .str "mockId")]] []) ∧
    getProp (.obj [("serviceId", .str "mockId")]) "isValid" = some .undefined :=
  ⟨rfl, rfl⟩

/-- C4: with collaborators as the spec requires them, validating a validated configuration
returns it unchanged: if the validator returns `out` for an object, it returns `out` for
`out`. -/
theorem configValidator_idempotent (env : Env) (config out : JSValue) (hw : WellFormedEnv env)
    (ho : isObject config = true) (h : configValidator env config = some out) :
    configValidator env out = some out := by
  obtain ⟨ap, am, r, cs, a, h₁, h₂, h₃, h₄, h₅, rfl⟩ := configValidator_eq_some env config out ho h
  rw [configValidator_of_isObject env _ (by simp [ho])]
  simp only [props_withProps _ _ ho, withProps_withProps, normalizedProps_apiPath,
    normalizedProps_asyncMode, normalizedProps_response, normalizedProps_consumedServices,
    normalizedProps_apis, orElseDefault_idem _ _ _ h₁, orElseDefault_idem _ _ _ h₂,
    responseValue_idem env hw _ _ h₃, consumedServicesValue_idem env hw _ _ h₄,
    apisValue_idem env hw _ _ h₅, Option.some_bind, Option.map_some', normalizedProps_idem]

/-- Witness for C4: the validated test configuration is returned unchanged by a second
run. -/
theorem configValidator_idempotent_witness :
    configValidator exampleEnv
      (.obj [("isDefault", .bool false), ("apiPath", .str "/test-status"),
        ("mode", .str "ON_REQUEST"), ("consumedServicesAsyncMode", .bool true),
        ("consumedServices", .obj [("mockId", .obj [("serviceName", .str "mock service"),
          ("healthCheckUrl", .str "/"), ("requestMethod", .str "GET"),
          ("expectedResponseStatus", .str "200"), ("isRequired", .bool true),
          ("isValid", .bool true)])]),
        ("apis", .obj []), ("response", .obj [("statusCodes", .bool true)])])
    = some (.obj [("isDefault", .bool false), ("apiPath", .str "/test-status"),
        ("mode", .str "ON_REQUEST"), ("consumedServicesAsyncMode", .bool true),
        ("consumedServices", .obj [("mockId", .obj [("serviceName", .str "mock service"),
          ("healthCheckUrl", .str "/"), ("requestMethod", .str "GET"),
          ("expectedResponseStatus", .str "200"), ("isRequired", .bool true),
          ("isValid", .bool true)])]),
        ("apis", .obj []), ("response", .obj [("statusCodes", .bool true)])]) :=
  configValidator_idempotent exampleEnv customConfig _ exampleEnv_wellFormed rfl rfl

/-- C5: the validator throws on an `apis` entry that is `null`, on a service whose
`requestMethod` is the number 5, and on an API whose `requestMethod` is the number 5. -/
theorem configValidator_throws :
    configValidator exampleEnv (.obj [("apis", .obj [("mockId", .null)])]) = none ∧
    configValidator exampleEnv (.obj [("consumedServices",
      .obj [("mockId", .obj [("healthCheckUrl", .str "/"), ("requestMethod", .num 5)])])])
      = none ∧
    configValidator exampleEnv (.obj [("apis",
      .obj [("mockId", .obj [("requestMethod", .num 5)])])]) = none :=
  ⟨rfl, rfl, rfl⟩

/-- C6, as amended: an absent (falsy) `response` is replaced by the default response block;
a response object whose `statusCodes` is a boolean is returned unchanged; a response object
whose `statusCodes` is missing or not a boolean gets the default block's `statusCodes`. -/
theorem configValidator_response (env : Env) (config out response : JSValue)
    (ho : isObject config = true) (hr : getProp config "response" = some response)
    (h : configValidator env config = some out) :
    (truthy response = false → getProp out "response" = getProp env.defaultConfig "response") ∧
    (isObject response = true → typeOf (assocGet (props response) "statusCodes") = "boolean" →
      getProp out "response" = some response) ∧
    (isObject response = true → typeOf (assocGet (props response) "statusCodes") ≠ "boolean" →
      (getProp out "response").bind (fun r => getProp r "statusCodes")
        = (getProp env.defaultConfig "response").bind fun r => getProp r "statusCodes") := by
  obtain ⟨ap, am, r, cs, a, -, -, h₃, -, -, rfl⟩ := configValidator_eq_some env config out ho h
  rw [getProp_of_isObject _ _ ho, Option.some.injEq] at hr
  rw [getProp_withProps _ _ _ ho, normalizedProps_response]
  rw [hr] at h₃
  refine ⟨fun hf => ?_, fun hobj hb => ?_, fun hobj hb => ?_⟩
  · simp only [responseValue, hf, Bool.false_eq_true, if_false] at h₃
    exact h₃.symm
  · simp only [responseValue, truthy_of_isObject _ hobj, if_true,
      getProp_of_isObject _ _ hobj, Option.some_bind, hb, ne_eq, not_true_eq_false,
      if_false, Option.some.injEq] at h₃
    rw [h₃]
  · simp only [responseValue, truthy_of_isObject _ hobj, if_true,
      getProp_of_isObject _ _ hobj, Option.some_bind, hb, ne_eq, not_false_eq_true,
      Option.bind_eq_some] at h₃
    obtain ⟨d, ⟨dr, hdr, hd⟩, hset⟩ := h₃
    rw [setProp_of_isObject _ _ _ hobj, Option.some.injEq] at hset
    subst hset
    simp only [Option.some_bind, hdr]
    rw [getProp_withProps _ _ _ hobj, assocGet_assocSet_same]
    exact hd.symm

/-- Witness for C6: the three cases on the test configuration, with `response` absent,
`response = {statusCodes: false}` and `response = {statusCodes: "foo"}`. -/
theorem configValidator_response_witness :
    getProp (.obj [("isDefault", .bool false), ("apiPath", .str "/status"),
        ("consumedServicesAsyncMode", .bool true), ("response", .obj [("statusCodes", .bool true)]),
        ("consumedServices", .obj []), ("apis", .obj [])]) "response"
      = getProp exampleEnv.defaultConfig "response" ∧
    getProp (.obj [("response", .obj [("statusCodes", .bool false)]), ("isDefault", .bool false),
        ("apiPath", .str "/status"), ("consumedServicesAsyncMode", .bool true),
        ("consumedServices", .obj []), ("apis", .obj [])]) "response"
      = some (.obj [("statusCodes", .bool false)]) ∧
    (getProp (.obj [("response", .obj [("statusCodes", .bool true)]), ("isDefault", .bool false),
        ("apiPath", .str "/status"), ("consumedServicesAsyncMode", .bool true),
        ("consumedServices", .obj []), ("apis", .obj [])]) "response").bind
        (fun r => getProp r "statusCodes")
      = (getProp exampleEnv.defaultConfig "response").bind fun r => getProp r "statusCodes" :=
  ⟨(configValidator_response exampleEnv (.obj []) _ .undefined rfl rfl rfl).1 rfl,
   (configValidator_response exampleEnv (.obj [("response", .obj [("statusCodes", .bool false)])])
      _ (.obj [("statusCodes", .bool false)]) rfl rfl rfl).2.1 rfl rfl,
   (configValidator_response exampleEnv
      (.obj [("response", .obj [("statusCodes", .str "foo")])])
      _ (.obj [("statusCodes", .str "foo")]) rfl rfl rfl).2.2 rfl (by decide)⟩

/-- Counterexample for C6: on the test configuration with `response = "foo"` the validator
returns, the string is truthy and its `statusCodes` is missing, yet the output `response`
is still `"foo"`: its `statusCodes` reads `undefined`, which is not the default block's
`statusCodes` (the assignment on line 22 to a property of a string is dropped). -/
theorem response_string_not_defaulted :
    ∃ out, configValidator exampleEnv (customConfigWith "response" (.str "foo")) = some out ∧
      getProp out "response" = some (.str "foo") ∧
      (getProp out "response").bind (fun r => getProp r "statusCodes") = some .undefined ∧
      (getProp out "response").bind (fun r => getProp r "statusCodes")
        ≠ (getProp exampleEnv.defaultConfig "response").bind fun r => getProp r "statusCodes" :=
  ⟨_, rfl, rfl, rfl, fun h => JSValue.noConfusion (Option.some.inj h)⟩

/-- C7: for `apiPath` and for `consumedServicesAsyncMode`, a falsy input value is replaced by
the default configuration's value and a truthy input value is returned unchanged. -/
theorem configValidator_scalar (env : Env) (config out v : JSValue) (key : String)
    (hkey : key = "apiPath" ∨ key = "consumedServicesAsyncMode")
    (ho : isObject config = true) (hv : getProp config key = some v)
    (h : configValidator env config = some out) :
    (truthy v = false → getProp out key = getProp env.defaultConfig key) ∧
    (truthy v = true → getProp out key = some v) := by
  obtain ⟨ap, am, r, cs, a, h₁, h₂, -, -, -, rfl⟩ := configValidator_eq_some env config out ho h
  rw [getProp_of_isObject _ _ ho, Option.some.injEq] at hv
  rw [getProp_withProps _ _ _ ho]
  rcases hkey with rfl | rfl
  · rw [normalizedProps_apiPath]
    rw [hv] at h₁
    constructor
    · intro hf; simp only [orElseDefault, hf, Bool.false_eq_true, if_false] at h₁; exact h₁.symm
    · intro ht; simp only [orElseDefault, ht, if_true] at h₁; exact h₁.symm
  · rw [normalizedProps_asyncMode]
    rw [hv] at h₂
    constructor
    · intro hf; simp only [orElseDefault, hf, Bool.false_eq_true, if_false] at h₂; exact h₂.symm
    · intro ht; simp only [orElseDefault, ht, if_true] at h₂; exact h₂.symm

/-- Witness for C7: an empty `apiPath` becomes the default path, and the path `/test-status`
of the test configuration is kept. -/
theorem configValidator_scalar_witness :
    getProp (.obj [("apiPath", .str "/status"), ("isDefault", .bool false),
        ("consumedServicesAsyncMode", .bool true), ("response", .obj [("statusCodes", .bool true)]),
        ("consumedServices", .obj []), ("apis", .obj [])]) "apiPath"
      = getProp exampleEnv.defaultConfig "apiPath" ∧
    getProp (.obj [("apiPath", .str "/test-status"), ("isDefault", .bool false),
        ("consumedServicesAsyncMode", .bool true), ("response", .obj [("statusCodes", .bool true)]),
        ("consumedServices", .obj []), ("apis", .obj [])]) "apiPath"
      = some (.str "/test-status") :=
  ⟨(configValidator_scalar exampleEnv (.obj [("apiPath", .str "")]) _ (.str "") "apiPath"
      (Or.inl rfl) rfl rfl rfl).1 rfl,
   (configValidator_scalar exampleEnv (.obj [("apiPath", .str "/test-status")]) _
      (.str "/test-status") "apiPath" (Or.inl rfl) rfl rfl rfl).2 rfl⟩

/-- C8: with a default of `true`, the test input `consumedServicesAsyncMode = false` comes
back as `true`: the explicit `false` is not preserved. -/
theorem asyncMode_false_replaced :
    (configValidator exampleEnv
        (withProps customConfig (assocSet (props customConfig) "consumedServicesAsyncMode"
          (.bool false)))).bind (fun out => getProp out "consumedServicesAsyncMode")
      = some (.bool true) :=
  rfl

/-- C9: with a template `isRequired` of `true`, a service entry with `isRequired = false`
comes back with `isRequired = true`: the explicit `false` is not preserved. -/
theorem service_isRequired_false_replaced :
    (((configValidator exampleEnv
        (.obj [("consumedServices", .obj [("mockId", .obj [("healthCheckUrl", .str "/"),
          ("requestMethod", .str "GET"), ("isRequired", .bool false)])])])).bind
        fun out => getProp out "consumedServices").bind
        fun services => getProp services "mockId").bind
        (fun service => getProp service "isRequired")
      = some (.bool true) :=
  rfl

/-- C10: two configurations that differ only in the letter case of the `requestMethod`
string of one service, or of one API, are validated to the same result; and the
`requestMethod` of every truthy service entry of the output is an uppercased string. -/
theorem requestMethod_case_insensitive (env : Env) (fields entries entry : List (String × JSValue))
    (id s₁ s₂ : String) (hup : env.toUpperCase s₁ = env.toUpperCase s₂)
    (h₁ : s₁ ≠ "") (h₂ : s₂ ≠ "") :
    configValidator env (.obj (assocSet fields "consumedServices"
        (.obj (assocSet entries id (.obj (assocSet entry "requestMethod" (.str s₁)))))))
      = configValidator env (.obj (assocSet fields "consumedServices"
        (.obj (assocSet entries id (.obj (assocSet entry "requestMethod" (.str s₂))))))) ∧
    configValidator env (.obj (assocSet fields "apis"
        (.obj (assocSet entries id (.obj (assocSet entry "requestMethod" (.str s₁)))))))
      = configValidator env (.obj (assocSet fields "apis"
        (.obj (assocSet entries id (.obj (assocSet entry "requestMethod" (.str s₂))))))) ∧
    ∀ (config out : JSValue) (svcs : List (String × JSValue)) (key : String),
      isObject config = true → getProp config "consumedServices" = some (.obj svcs) →
      truthy (assocGet svcs key) = true → configValidator env config = some out →
      ∃ svcs' method, getProp out "consumedServices" = some (.obj svcs') ∧
        getProp (assocGet svcs' key) "requestMethod" = some (.str (env.toUpperCase method)) := by
  refine ⟨?_, ?_, ?_⟩
  · apply configValidator_services_congr
    simp only [consumedServicesValue, truthy, if_true, forEntries]
    congr 1
    funext d
    rw [mapValuesM_assocSet_congr _ _ _ _ _ (validateService_case env d entry s₁ s₂ hup h₁ h₂)]
  · apply configValidator_apis_congr
    simp only [apisValue, truthy, if_true, forEntries]
    congr 1
    funext d
    rw [mapValuesM_assocSet_congr _ _ _ _ _ (validateApi_case env d entry s₁ s₂ hup h₁ h₂)]
  · intro config out svcs key ho hcs ht h
    obtain ⟨d, svcs', -, hout, hm⟩ := configValidator_services env config out svcs ho hcs h
    have he := mapValuesM_assocGet _ _ _ hm key (hasKey_of_truthy svcs key ht)
    have hobj := validateService_isObject env d _ _ ht he
    obtain ⟨sn, m, known, e, r, -, -, -, -, -, h₆⟩ := validateService_eq_some env d _ _ hobj he
    refine ⟨svcs', m, hout, ?_⟩
    rw [h₆, getProp_withProps _ _ _ hobj]
    simp [serviceProps]

/-- Witness for C10: the `mockId` service of the test configuration with the methods `get`
and `gEt`; both runs return the method `GET` and `isValid = true`. -/
theorem requestMethod_case_insensitive_witness :
    configValidator exampleEnv (.obj (assocSet (props customConfig) "consumedServices"
        (.obj (assocSet [] "mockId" (.obj (assocSet [("serviceName", .str "mock service"),
          ("healthCheckUrl", .str "/"), ("requestMethod", .str "GET"),
          ("expectedResponseStatus", .str "200"), ("isRequired", .bool true)]
          "requestMethod" (.str "get")))))))
      = configValidator exampleEnv (.obj (assocSet (props customConfig) "consumedServices"
        (.obj (assocSet [] "mockId" (.obj (assocSet [("serviceName", .str "mock service"),
          ("healthCheckUrl", .str "/"), ("requestMethod", .str "GET"),
          ("expectedResponseStatus", .str "200"), ("isRequired", .bool true)]
          "requestMethod" (.str "gEt"))))))) ∧
    ((configValidator exampleEnv (.obj (assocSet (props customConfig) "consumedServices"
        (.obj (assocSet [] "mockId" (.obj (assocSet [("serviceName", .str "mock service"),
          ("healthCheckUrl", .str "/"), ("requestMethod", .str "GET"),
          ("expectedResponseStatus", .str "200"), ("isRequired", .bool true)]
          "requestMethod" (.str "gEt")))))))).bind
        fun out => getProp out "consumedServices").bind (fun services => getProp services "mockId")
      = some (.obj [("serviceName", .str "mock service"), ("healthCheckUrl", .str "/"),
          ("requestMethod", .str "GET"), ("expectedResponseStatus", .str "200"),
          ("isRequired", .bool true), ("isValid", .bool true)]) :=
  ⟨(requestMethod_case_insensitive exampleEnv (props customConfig) []
      [("serviceName", .str "mock service"), ("healthCheckUrl", .str "/"),
        ("requestMethod", .str "GET"), ("expectedResponseStatus", .str "200"),
        ("isRequired", .bool true)] "mockId" "get" "gEt" (by decide) (by decide) (by decide)).1,
    rfl⟩

/-- C11: for every entry of the `apis` mapping: a non-empty string `requestMethod` whose
uppercased form is a key of `REQUEST_TYPES` with a truthy value comes back uppercased, one
whose uppercased form is not comes back as the default API's `requestMethod`, and so does a
falsy `requestMethod` when the default API's method is a string in uppercase form; the
entry's `isValid` is left as it was and no `isValid` key is added. -/
theorem api_requestMethod (env : Env) (config out : JSValue) (apis : List (String × JSValue))
    (id : String) (ho : isObject config = true)
    (hapis : getProp config "apis" = some (.obj apis)) (hid : hasKey apis id = true)
    (h : configValidator env config = some out) :
    ∃ d apis', defaultApiConfig env = some d ∧ getProp out "apis" = some (.obj apis') ∧
      (∀ s, assocGet (props (assocGet apis id)) "requestMethod" = .str s → s ≠ "" →
        ∃ known, getProp env.REQUEST_TYPES (env.toUpperCase s) = some known ∧
          (truthy known = true → getProp (assocGet apis' id) "requestMethod"
            = some (.str (env.toUpperCase s))) ∧
          (truthy known = false → getProp (assocGet apis' id) "requestMethod"
            = getProp d "requestMethod")) ∧
      (truthy (assocGet (props (assocGet apis id)) "requestMethod") = false →
        ∃ m, getProp d "requestMethod" = some (.str m) ∧
          (env.toUpperCase m = m → getProp (assocGet apis' id) "requestMethod"
            = getProp d "requestMethod")) ∧
      getProp (assocGet apis' id) "isValid" = getProp (assocGet apis id) "isValid" ∧
      hasKey (props (assocGet apis' id)) "isValid"
        = hasKey (props (assocGet apis id)) "isValid" := by
  obtain ⟨d, apis', hd, hout, hobj, he⟩ :=
    configValidator_api_entry env config out apis id ho hapis hid h
  obtain ⟨an, m, known, rm, -, h₂, h₃, h₄, h₅⟩ := validateApi_eq_some env d _ _ hobj he
  have hrm : getProp (assocGet apis' id) "requestMethod" = some rm := by
    rw [h₅, getProp_withProps _ _ _ hobj]; simp [apiProps]
  refine ⟨d, apis', hd, hout, ?_, ?_, ?_, ?_⟩
  · intro s hs hne
    rw [hs, orElseDefault_of_truthy _ _ (truthy_str s hne), Option.some.injEq,
      JSValue.str.injEq] at h₂
    subst h₂
    refine ⟨known, h₃, fun hk => ?_, fun hk => ?_⟩
    · simp only [hk, if_true, Option.some.injEq] at h₄
      rw [hrm, h₄]
    · simp only [hk, Bool.false_eq_true, if_false] at h₄
      rw [hrm, h₄]
  · intro hf
    rw [orElseDefault_of_falsy _ _ hf] at h₂
    refine ⟨m, h₂, fun hup => ?_⟩
    rw [hup] at h₄
    by_cases hk : truthy known = true
    · simp only [hk, if_true, Option.some.injEq] at h₄
      rw [hrm, h₂, h₄]
    · simp only [hk, Bool.false_eq_true, if_false] at h₄
      rw [hrm, h₄]
  · rw [h₅, getProp_withProps _ _ _ hobj, getProp_of_isObject _ _ hobj]
    simp [apiProps]
  · rw [h₅, props_withProps _ _ hobj]
    simp [apiProps]

/-- Witness for C11: the API `{requestMethod: "post"}` of the test configuration; `POST` is
in the enumeration and comes back uppercased. -/
theorem api_requestMethod_witness :
    ∃ out, configValidator exampleEnv
        (customConfigWith "apis" (.obj [("mockId", .obj [("requestMethod", .str "post")])]))
        = some out ∧
    ∃ d apis', defaultApiConfig exampleEnv = some d ∧ getProp out "apis" = some (.obj apis') ∧
      (∀ s, assocGet (props (assocGet [("mockId", .obj [("requestMethod", .str "post")])]
          "mockId")) "requestMethod" = .str s → s ≠ "" →
        ∃ known, getProp exampleEnv.REQUEST_TYPES (exampleEnv.toUpperCase s) = some known ∧
          (truthy known = true → getProp (assocGet apis' "mockId") "requestMethod"
            = some (.str (exampleEnv.toUpperCase s))) ∧
          (truthy known = false → getProp (assocGet apis' "mockId") "requestMethod"
            = getProp d "requestMethod")) ∧
      (truthy (assocGet (props (assocGet [("mockId", .obj [("requestMethod", .str "post")])]
          "mockId")) "requestMethod") = false →
        ∃ m, getProp d "requestMethod" = some (.str m) ∧
          (exampleEnv.toUpperCase m = m → getProp (assocGet apis' "mockId") "requestMethod"
            = getProp d "requestMethod")) ∧
      getProp (assocGet apis' "mockId") "isValid"
        = getProp (assocGet [("mockId", .obj [("requestMethod", .str "post")])] "mockId")
          "isValid" ∧
      hasKey (props (assocGet apis' "mockId")) "isValid"
        = hasKey (props (assocGet [("mockId", .obj [("requestMethod", .str "post")])] "mockId"))
          "isValid" :=
  ⟨_, rfl, api_requestMethod exampleEnv
    (customConfigWith "apis" (.obj [("mockId", .obj [("requestMethod", .str "post")])])) _
    [("mockId", .obj [("requestMethod", .str "post")])] "mockId" rfl rfl rfl rfl⟩

/-- C12: for every entry of the `apis` mapping the output `dependsOn` is an array: the
input array itself, elements and order unchanged, when the input is an array, and the empty
array otherwise. -/
theorem api_dependsOn (env : Env) (config out : JSValue) (apis : List (String × JSValue))
    (id : String) (ho : isObject config = true)
    (hapis : getProp config "apis" = some (.obj apis)) (hid : hasKey apis id = true)
    (h : configValidator env config = some out) :
    ∃ apis' dependsOn, getProp out "apis" = some (.obj apis') ∧
      getProp (assocGet apis' id) "dependsOn" = some dependsOn ∧
      isArray dependsOn = true ∧
      (isArray (assocGet (props (assocGet apis id)) "dependsOn") = true →
        dependsOn = assocGet (props (assocGet apis id)) "dependsOn") ∧
      (isArray (assocGet (props (assocGet apis id)) "dependsOn") = false →
        dependsOn = .arr [] []) := by
  obtain ⟨d, apis', -, hout, hobj, he⟩ :=
    configValidator_api_entry env config out apis id ho hapis hid h
  obtain ⟨an, m, known, rm, -, -, -, -, h₅⟩ := validateApi_eq_some env d _ _ hobj he
  refine ⟨apis', (if isArray (assocGet (props (assocGet apis id)) "dependsOn") = true then
      assocGet (props (assocGet apis id)) "dependsOn" else .arr [] []), hout, ?_, ?_,
    fun ha => ?_, fun ha => ?_⟩
  · rw [h₅, getProp_withProps _ _ _ hobj]; simp only [apiProps, assocGet_assocSet_same]
  · by_cases ha : isArray (assocGet (props (assocGet apis id)) "dependsOn") = true
    · simp only [ha, if_true]
    · simp only [ha, Bool.false_eq_true, if_false]; rfl
  · simp only [ha, if_true]
  · simp only [ha, Bool.false_eq_true, if_false]

/-- Witness for C12: the API `{dependsOn: {}}` of the test at lines 207-209; the plain
object is replaced by an array. -/
theorem api_dependsOn_witness :
    ∃ out, configValidator exampleEnv
        (customConfigWith "apis" (.obj [("mockId", .obj [("dependsOn", .obj [])])])) = some out ∧
    ∃ apis' dependsOn, getProp out "apis" = some (.obj apis') ∧
      getProp (assocGet apis' "mockId") "dependsOn" = some dependsOn ∧
      isArray dependsOn = true ∧
      (isArray (assocGet (props (assocGet [("mockId", .obj [("dependsOn", .obj [])])] "mockId"))
          "dependsOn") = true →
        dependsOn = assocGet (props (assocGet [("mockId", .obj [("dependsOn", .obj [])])]
          "mockId")) "dependsOn") ∧
      (isArray (assocGet (props (assocGet [("mockId", .obj [("dependsOn", .obj [])])] "mockId"))
          "dependsOn") = false →
        dependsOn = .arr [] []) :=
  ⟨_, rfl, api_dependsOn exampleEnv
    (customConfigWith "apis" (.obj [("mockId", .obj [("dependsOn", .obj [])])])) _
    [("mockId", .obj [("dependsOn", .obj [])])] "mockId" rfl rfl rfl rfl⟩

/-- C13: the validator leaves the `isRequired` of a `dependsOn` element as it is.  On the
test inputs `dependsOn = [{serviceId: "defaultServiceId", isRequired: "ABC"}]` and
`dependsOn = [{serviceId: "defaultServiceId"}]` the output arrays are the input arrays:
`"ABC"` stays and the missing `isRequired` stays missing, while the template's value is
`true`. -/
theorem dependsOn_isRequired_untouched :
    ((((configValidator exampleEnv (customConfigWith "apis" (.obj [("mockId", .obj [("dependsOn",
          .arr [.obj [("serviceId", .str "defaultServiceId"), ("isRequired", .str "ABC")]]
            [])])]))).bind
        fun out => getProp out "apis").bind
        fun apis => getProp apis "mockId").bind
        fun api => getProp api "dependsOn")
      = some (.arr [.obj [("serviceId", .str "defaultServiceId"), ("isRequired", .str "ABC")]]
          []) ∧
    ((((configValidator exampleEnv (customConfigWith "apis" (.obj [("mockId", .obj [("dependsOn",
          .arr [.obj [("serviceId", .str "defaultServiceId")]] [])])]))).bind
        fun out => getProp out "apis").bind
        fun apis => getProp apis "mockId").bind
        fun api => getProp api "dependsOn")
      = some (.arr [.obj [("serviceId", .str "defaultServiceId")]] []) ∧
    getProp (.obj [("serviceId", .str "defaultServiceId")]) "isRequired" = some .undefined :=
  ⟨rfl, rfl, rfl⟩

/-- C14: the validator does not touch `systemInformation`.  On the test configuration, where
it is absent, the output has none (it reads `undefined`, not the default block), and the
string `"ABC"` comes back as `"ABC"`. -/
theorem systemInformation_not_defaulted :
    (configValidator exampleEnv customConfig).bind (fun out => getProp out "systemInformation")
      = some .undefined ∧
    (configValidator exampleEnv (customConfigWith "systemInformation" (.str "ABC"))).bind
        (fun out => getProp out "systemInformation")
      = some (.str "ABC") ∧
    getProp exampleEnv.defaultConfig "systemInformation"
      = some (.obj [("common", .bool true), ("cpu", .bool true), ("memory", .bool true)]) :=
  ⟨rfl, rfl, rfl⟩

/-- C15: on the test inputs `systemInformation = false` and `systemInformation = true` the
output `systemInformation` is still the boolean, not an object with `common`, `cpu` and
`memory`. -/
theorem systemInformation_boolean_not_expanded :
    (configValidator exampleEnv (customConfigWith "systemInformation" (.bool false))).bind
        (fun out => getProp out "systemInformation")
      = some (.bool false) ∧
    (configValidator exampleEnv (customConfigWith "systemInformation" (.bool true))).bind
        (fun out => getProp out "systemInformation")
      = some (.bool true) :=
  ⟨rfl, rfl⟩

/-- C16: on the test inputs `systemInformation = {common: "Abc", cpu: "123", memory: 45}`
and `systemInformation = {services: ["abc", "cde"]}` the output `systemInformation` is the
input object: the strings and the number are not turned into booleans, `common` is not
filled from the default block, and the `services` array is not joined. -/
theorem systemInformation_object_not_coerced :
    (configValidator exampleEnv (customConfigWith "systemInformation"
        (.obj [("common", .str "Abc"), ("cpu", .str "123"), ("memory", .num 45)]))).bind
        (fun out => getProp out "systemInformation")
      = some (.obj [("common", .str "Abc"), ("cpu", .str "123"), ("memory", .num 45)]) ∧
    (configValidator exampleEnv (customConfigWith "systemInformation"
        (.obj [("services", .arr [.str "abc", .str "cde"] [])]))).bind
        (fun out => getProp out "systemInformation")
      = some (.obj [("services", .arr [.str "abc", .str "cde"] [])]) :=
  ⟨rfl, rfl⟩

/-- C17: for every truthy entry of the `consumedServices` mapping: the output `serviceName`
is the input one when truthy and the template's otherwise, the same holds for
`expectedResponseStatus`, and `healthCheckUrl` is returned as it was given (an absent key
stays absent). -/
theorem service_scalars (env : Env) (config out : JSValue) (svcs : List (String × JSValue))
    (id key : String) (hkey : key = "serviceName" ∨ key = "expectedResponseStatus")
    (ho : isObject config = true)
    (hcs : getProp config "consumedServices" = some (.obj svcs))
    (ht : truthy (assocGet svcs id) = true) (h : configValidator env config = some out) :
    ∃ d svcs', defaultServiceConfig env = some d ∧
      getProp out "consumedServices" = some (.obj svcs') ∧
      (truthy (assocGet (props (assocGet svcs id)) key) = true →
        getProp (assocGet svcs' id) key = getProp (assocGet svcs id) key) ∧
      (truthy (assocGet (props (assocGet svcs id)) key) = false →
        getProp (assocGet svcs' id) key = getProp d key) ∧
      getProp (assocGet svcs' id) "healthCheckUrl"
        = getProp (assocGet svcs id) "healthCheckUrl" ∧
      hasKey (props (assocGet svcs' id)) "healthCheckUrl"
        = hasKey (props (assocGet svcs id)) "healthCheckUrl" := by
  obtain ⟨d, svcs', hd, hout, hobj, he⟩ :=
    configValidator_service_entry env config out svcs id ho hcs ht h
  obtain ⟨sn, m, known, e, r, h₁, -, -, h₄, -, h₆⟩ := validateService_eq_some env d _ _ hobj he
  have hsn : getProp (assocGet svcs' id) "serviceName" = some sn := by
    rw [h₆, getProp_withProps _ _ _ hobj]; simp [serviceProps]
  have hers : getProp (assocGet svcs' id) "expectedResponseStatus" = some e := by
    rw [h₆, getProp_withProps _ _ _ hobj]; simp [serviceProps]
  refine ⟨d, svcs', hd, hout, ?_, ?_, ?_, ?_⟩
  · intro hv
    rw [getProp_of_isObject _ _ hobj]
    rcases hkey with rfl | rfl
    · rw [orElseDefault_of_truthy _ _ hv] at h₁; rw [hsn, h₁]
    · rw [orElseDefault_of_truthy _ _ hv] at h₄; rw [hers, h₄]
  · intro hv
    rcases hkey with rfl | rfl
    · rw [orElseDefault_of_falsy _ _ hv] at h₁; rw [hsn, h₁]
    · rw [orElseDefault_of_falsy _ _ hv] at h₄; rw [hers, h₄]
  · rw [h₆, getProp_withProps _ _ _ hobj, getProp_of_isObject _ _ hobj]
    simp [serviceProps]
  · rw [h₆, props_withProps _ _ hobj]
    simp [serviceProps]

/-- Witness for C17: the service `{serviceName: "mock service"}` of the test configuration:
the name is kept, and the missing `healthCheckUrl` stays missing. -/
theorem service_scalars_witness :
    ∃ out, configValidator exampleEnv (customConfigWith "consumedServices"
        (.obj [("mockId", .obj [("serviceName", .str "mock service")])])) = some out ∧
    ∃ d svcs', defaultServiceConfig exampleEnv = some d ∧
      getProp out "consumedServices" = some (.obj svcs') ∧
      (truthy (assocGet (props (assocGet [("mockId", .obj [("serviceName",
          .str "mock service")])] "mockId")) "serviceName") = true →
        getProp (assocGet svcs' "mockId") "serviceName"
          = getProp (assocGet [("mockId", .obj [("serviceName", .str "mock service")])]
            "mockId") "serviceName") ∧
      (truthy (assocGet (props (assocGet [("mockId", .obj [("serviceName",
          .str "mock service")])] "mockId")) "serviceName") = false →
        getProp (assocGet svcs' "mockId") "serviceName" = getProp d "serviceName") ∧
      getProp (assocGet svcs' "mockId") "healthCheckUrl"
        = getProp (assocGet [("mockId", .obj [("serviceName", .str "mock service")])] "mockId")
          "healthCheckUrl" ∧
      hasKey (props (assocGet svcs' "mockId")) "healthCheckUrl"
        = hasKey (props (assocGet [("mockId", .obj [("serviceName", .str "mock service")])]
          "mockId")) "healthCheckUrl" :=
  ⟨_, rfl, service_scalars exampleEnv (customConfigWith "consumedServices"
      (.obj [("mockId", .obj [("serviceName", .str "mock service")])])) _
    [("mockId", .obj [("serviceName", .str "mock service")])] "mockId" "serviceName"
    (Or.inl rfl) rfl rfl rfl rfl⟩

/-- C18: for every truthy entry of the `consumedServices` mapping whose `requestMethod` is
falsy, the template's `requestMethod` is a string and the output `requestMethod` is its
uppercased form, hence the template's `requestMethod` itself when that is in uppercase
form. -/
theorem service_requestMethod_default (env : Env) (config out : JSValue)
    (svcs : List (String × JSValue)) (id : String) (ho : isObject config = true)
    (hcs : getProp config "consumedServices" = some (.obj svcs))
    (ht : truthy (assocGet svcs id) = true)
    (hf : truthy (assocGet (props (assocGet svcs id)) "requestMethod") = false)
    (h : configValidator env config = some out) :
    ∃ d svcs' m, defaultServiceConfig env = some d ∧
      getProp out "consumedServices" = some (.obj svcs') ∧
      getProp d "requestMethod" = some (.str m) ∧
      getProp (assocGet svcs' id) "requestMethod" = some (.str (env.toUpperCase m)) ∧
      (env.toUpperCase m = m →
        getProp (assocGet svcs' id) "requestMethod" = getProp d "requestMethod") := by
  obtain ⟨d, svcs', hd, hout, hobj, he⟩ :=
    configValidator_service_entry env config out svcs id ho hcs ht h
  obtain ⟨sn, m, known, e, r, -, h₂, -, -, -, h₆⟩ := validateService_eq_some env d _ _ hobj he
  rw [orElseDefault_of_falsy _ _ hf] at h₂
  have hrm : getProp (assocGet svcs' id) "requestMethod" = some (.str (env.toUpperCase m)) := by
    rw [h₆, getProp_withProps _ _ _ hobj]; simp [serviceProps]
  exact ⟨d, svcs', m, hd, hout, h₂, hrm, fun hup => by rw [hrm, h₂, hup]⟩

/-- Witness for C18: the service `{healthCheckUrl: "/"}` of the test configuration, which
has no `requestMethod`. -/
theorem service_requestMethod_default_witness :
    ∃ out, configValidator exampleEnv (customConfigWith "consumedServices"
        (.obj [("mockId", .obj [("healthCheckUrl", .str "/")])])) = some out ∧
    ∃ d svcs' m, defaultServiceConfig exampleEnv = some d ∧
      getProp out "consumedServices" = some (.obj svcs') ∧
      getProp d "requestMethod" = some (.str m) ∧
      getProp (assocGet svcs' "mockId") "requestMethod"
        = some (.str (exampleEnv.toUpperCase m)) ∧
      (exampleEnv.toUpperCase m = m →
        getProp (assocGet svcs' "mockId") "requestMethod" = getProp d "requestMethod") :=
  ⟨_, rfl, service_requestMethod_default exampleEnv (customConfigWith "consumedServices"
      (.obj [("mockId", .obj [("healthCheckUrl", .str "/")])])) _
    [("mockId", .obj [("healthCheckUrl", .str "/")])] "mockId" rfl rfl rfl rfl rfl⟩

/-- C19: a falsy (absent) `consumedServices` is replaced by the empty object, and so is a
falsy (absent) `apis`; no template entry is put into either. -/
theorem configValidator_absent_mappings (env : Env) (config out : JSValue)
    (ho : isObject config = true) (h : configValidator env config = some out) :
    (truthy (assocGet (props config) "consumedServices") = false →
      getProp out "consumedServices" = some (.obj [])) ∧
    (truthy (assocGet (props config) "apis") = false →
      getProp out "apis" = some (.obj [])) := by
  obtain ⟨ap, am, r, cs, a, -, -, -, h₄, h₅, rfl⟩ := configValidator_eq_some env config out ho h
  constructor
  · intro hf
    simp only [consumedServicesValue, hf, Bool.false_eq_true, if_false, Option.some.injEq] at h₄
    rw [getProp_withProps _ _ _ ho, normalizedProps_consumedServices, h₄]
  · intro hf
    simp only [apisValue, hf, Bool.false_eq_true, if_false, Option.some.injEq] at h₅
    rw [getProp_withProps _ _ _ ho, normalizedProps_apis, h₅]

/-- Witness for C19: a configuration whose `consumedServices` and `apis` are both
`undefined`. -/
theorem configValidator_absent_mappings_witness :
    ∃ out, configValidator exampleEnv
        (.obj [("consumedServices", .undefined), ("apis", .undefined)]) = some out ∧
      getProp out "consumedServices" = some (.obj []) ∧
      getProp out "apis" = some (.obj []) :=
  ⟨_, rfl,
    (configValidator_absent_mappings exampleEnv
      (.obj [("consumedServices", .undefined), ("apis", .undefined)]) _ rfl rfl).1 rfl,
    (configValidator_absent_mappings exampleEnv
      (.obj [("consumedServices", .undefined), ("apis", .undefined)]) _ rfl rfl).2 rfl⟩

/-- C20: when the input supplies a `consumedServices` mapping, the output mapping has the
same keys in the same order, and under every key whose input value is falsy the output
holds that same value. -/
theorem consumedServices_keys (env : Env) (config out : JSValue)
    (svcs : List (String × JSValue)) (ho : isObject config = true)
    (hcs : getProp config "consumedServices" = some (.obj svcs))
    (h : configValidator env config = some out) :
    ∃ svcs', getProp out "consumedServices" = some (.obj svcs') ∧
      svcs'.map Prod.fst = svcs.map Prod.fst ∧
      ∀ id, hasKey svcs id = true → truthy (assocGet svcs id) = false →
        assocGet svcs' id = assocGet svcs id := by
  obtain ⟨d, svcs', -, hout, hm⟩ := configValidator_services env config out svcs ho hcs h
  exact ⟨svcs', hout, mapValuesM_keys _ _ _ hm, fun id hk hv =>
    mapValuesM_falsy _ (validateService_of_falsy env d) _ _ hm id hk hv⟩

/-- Witness for C20: the mapping `{mockId: {}, off: null}`: both keys are kept and `off`
still holds `null`. -/
theorem consumedServices_keys_witness :
    ∃ out, configValidator exampleEnv (customConfigWith "consumedServices"
        (.obj [("mockId", .obj []), ("off", .null)])) = some out ∧
    ∃ svcs', getProp out "consumedServices" = some (.obj svcs') ∧
      svcs'.map Prod.fst = [("mockId", JSValue.obj []), ("off", JSValue.null)].map Prod.fst ∧
      ∀ id, hasKey [("mockId", JSValue.obj []), ("off", JSValue.null)] id = true →
        truthy (assocGet [("mockId", JSValue.obj []), ("off", JSValue.null)] id) = false →
        assocGet svcs' id = assocGet [("mockId", JSValue.obj []), ("off", JSValue.null)] id :=
  ⟨_, rfl, consumedServices_keys exampleEnv (customConfigWith "consumedServices"
      (.obj [("mockId", .obj []), ("off", .null)])) _
    [("mockId", .obj []), ("off", .null)] rfl rfl rfl⟩

/-- C21: when the default API's `requestMethod` is a string that is a key of
`REQUEST_TYPES` with a truthy value, every entry of the output `apis` mapping has a
`requestMethod` that is such a key too, on every run that returns, whether the input `apis`
is absent (falsy) or a mapping. -/
theorem api_requestMethod_member (env : Env) (config out d known : JSValue) (m : String)
    (ho : isObject config = true)
    (hshape : truthy (assocGet (props config) "apis") = false ∨
      ∃ apis, assocGet (props config) "apis" = .obj apis)
    (hd : defaultApiConfig env = some d) (hm : getProp d "requestMethod" = some (.str m))
    (hk : getProp env.REQUEST_TYPES m = some known) (hkt : truthy known = true)
    (h : configValidator env config = some out) :
    ∃ apis', getProp out "apis" = some (.obj apis') ∧
      ∀ id, hasKey apis' id = true →
        ∃ method marker, getProp (assocGet apis' id) "requestMethod" = some (.str method) ∧
          getProp env.REQUEST_TYPES method = some marker ∧ truthy marker = true := by
  rcases hshape with hf | ⟨apis, hobj⟩
  · obtain ⟨ap, am, r, cs, a, -, -, -, -, h₅, rfl⟩ :=
      configValidator_eq_some env config out ho h
    simp only [apisValue, hf, Bool.false_eq_true, if_false, Option.some.injEq] at h₅
    refine ⟨[], by rw [getProp_withProps _ _ _ ho, normalizedProps_apis, h₅], ?_⟩
    intro id hid
    simp [hasKey] at hid
  · have hapis : getProp config "apis" = some (.obj apis) := by
      rw [getProp_of_isObject _ _ ho, hobj]
    obtain ⟨d', apis', hd', hout, hmap⟩ := configValidator_apis env config out apis ho hapis h
    rw [hd, Option.some.injEq] at hd'
    subst hd'
    refine ⟨apis', hout, fun id hid => ?_⟩
    have hid' : hasKey apis id = true := by
      rw [← hasKey_of_keys_eq apis apis' id (mapValuesM_keys _ _ _ hmap)]; exact hid
    have he := mapValuesM_assocGet _ _ _ hmap id hid'
    have hentry := validateApi_isObject env d _ _ he
    obtain ⟨an, m', known', rm, -, -, h₃, h₄, h₅⟩ := validateApi_eq_some env d _ _ hentry he
    have hrm : getProp (assocGet apis' id) "requestMethod" = some rm := by
      rw [h₅, getProp_withProps _ _ _ hentry]; simp [apiProps]
    by_cases hk' : truthy known' = true
    · simp only [hk', if_true, Option.some.injEq] at h₄
      exact ⟨_, known', by rw [hrm, h₄], h₃, hk'⟩
    · simp only [hk', Bool.false_eq_true, if_false, hm, Option.some.injEq] at h₄
      exact ⟨m, known, by rw [hrm, h₄], hk, hkt⟩

/-- Witness for C21: the API `{requestMethod: "GET_UPPER"}` of the test at lines 195-198;
the unknown method is replaced by the default `GET`, which is in the enumeration. -/
theorem api_requestMethod_member_witness :
    ∃ out, configValidator exampleEnv (customConfigWith "apis"
        (.obj [("mockId", .obj [("requestMethod", .str "GET_UPPER")])])) = some out ∧
    ∃ apis', getProp out "apis" = some (.obj apis') ∧
      ∀ id, hasKey apis' id = true →
        ∃ method marker, getProp (assocGet apis' id) "requestMethod" = some (.str method) ∧
          getProp exampleEnv.REQUEST_TYPES method = some marker ∧ truthy marker = true :=
  ⟨_, rfl, api_requestMethod_member exampleEnv (customConfigWith "apis"
      (.obj [("mockId", .obj [("requestMethod", .str "GET_UPPER")])])) _ _ (.str "GET") "GET"
    rfl (Or.inr ⟨_, rfl⟩) rfl rfl rfl rfl rfl⟩

end ExpressHealth
